import Mathlib

/-!
Verification of the armada-engine battleship core.

The definitions below are a shallow embedding of the TypeScript sources:

* `src/core/engine/match.ts` — the `GameEngine` class (board state,
  per-cell shot records, ship hit accounting, item collection, pattern
  execution) and the two rule sets `ClassicRuleSet` and
  `AlternatingTurnsRuleSet`;
* `src/core/engine/machines/matchMachine.ts` — the `executeAttack` and
  `resolveTurn` actions of the xstate match coordinator;
* the plan/confirm/cancel `Match` coordinator (the snapshot shipped in the
  repository next to `errors.ts`): `planShot`, `confirmAttack`,
  `cancelPlan`, `checkGameOver`, `phaseAttackPattern`, `phaseTurnPattern`;
* `src/core/constants/shotPatterns.ts` — the `SINGLE_SHOT` and
  `CROSS_SHOT` patterns;
* `src/core/tools/ship/calculations.ts` — `getShip2DCells`,
  `getShipCellsFromShip`.

Modelling conventions.  JavaScript `Map` objects keyed by `"x,y"` strings
are modelled as association lists keyed by `Int × Int`, with `set`
replacing the first matching key (or appending, which preserves the
insertion order of the JS `Map`).  The ship/item position and size caches
(`cacheShipPositions`, `cacheItemPositions`) are rebuilt only at
initialization time from the immutable ship/item arrays, so they are
modelled as functions derived from the stored arrays; `Map.set`
overwriting on overlapping cells is mirrored by letting the ship with the
largest index win.  Observer callbacks (`onShot`, `onStateChange`,
`onTurnChange`, `onGameOver`) are modelled as a list of emitted events
returned next to the new state.  The TS sentinel `shipId = -1` is kept as
an `Int`; optional object fields are `Option` or defaulted `Bool` fields.
-/

namespace Armada

/-- One of the two competing sides. -/
inductive Player
| player
| enemy
deriving DecidableEq, Repr

/-- `Winner` is a side or `null`. -/
abbrev Winner := Option Player

/-- The turn flag of the engine. -/
inductive GameTurn
| PLAYER_TURN
| ENEMY_TURN
deriving DecidableEq, Repr

/-- One (dx, dy) offset of a shot pattern. -/
structure ShotOffset where
  dx : Int
  dy : Int
deriving DecidableEq, Repr

/-- A named list of offsets fired around a chosen center. -/
structure ShotPattern where
  id : String
  offsets : List ShotOffset
deriving DecidableEq, Repr

/-- A 2D rectangular ship: top-left corner plus width × height footprint. -/
structure GameShip where
  coordsX : Int
  coordsY : Int
  width : Nat
  height : Nat
deriving DecidableEq, Repr

/-- A collectible item occupying `part` cells in a horizontal run. -/
structure GameItem where
  coordsX : Int
  coordsY : Int
  part : Nat
deriving DecidableEq, Repr

/-- A stored per-cell shot record (the `Shot` interface).  Optional TS
fields are `Option`; the collection fields are spread in only when an item
was collected and default to the falsy values otherwise. -/
structure Shot where
  x : Int
  y : Int
  hit : Bool
  shipId : Option Nat := none
  patternId : String := "single"
  patternCenterX : Int := 0
  patternCenterY : Int := 0
  collected : Bool := false
  itemId : Option Nat := none
  itemFullyCollected : Bool := false
deriving DecidableEq, Repr

/-- One entry of `ShotPatternResult.shots`: a `Shot` plus the
`shipDestroyed` and `executed` flags. -/
structure PatternShot where
  x : Int
  y : Int
  hit : Bool
  shipId : Option Nat := none
  shipDestroyed : Bool := false
  executed : Bool
  patternId : Option String := none
  patternCenterX : Option Int := none
  patternCenterY : Option Int := none
  collected : Bool := false
  itemId : Option Nat := none
  itemFullyCollected : Bool := false
deriving DecidableEq, Repr

/-- Result of `executeShotPattern` (the `ShotPatternResult` interface). -/
structure ShotPatternResult where
  success : Bool
  error : Option String := none
  shots : List PatternShot
  isGameOver : Bool
  winner : Winner
deriving DecidableEq, Repr

/-- Result of the low-level `executeShot` (the `ShotResult` interface).
`shipId` keeps the TS `-1` sentinel for misses. -/
structure ShotResult where
  success : Bool
  error : Option String := none
  hit : Bool
  shipId : Int
  shipDestroyed : Bool := false
  isGameOver : Bool := false
  winner : Winner := none
  collected : Bool := false
  itemId : Option Nat := none
  itemFullyCollected : Bool := false
deriving DecidableEq, Repr

/-- Decision returned by `MatchRuleSet.decideTurn`. -/
structure TurnDecision where
  shouldEndTurn : Bool
  shouldToggleTurn : Bool
  canShootAgain : Bool
  reason : String
deriving DecidableEq, Repr

/-- Decision returned by `MatchRuleSet.checkGameOver`. -/
structure GameOverDecision where
  isGameOver : Bool
  winner : Winner
deriving DecidableEq, Repr

/-- Return value of the private `collectItem` helper (when not `null`). -/
structure ItemCollection where
  collected : Bool
  itemId : Nat
  itemFullyCollected : Bool
deriving DecidableEq, Repr

/-- `ShotError.CellAlreadyShot` from `errors.ts`. -/
def ShotErrorCellAlreadyShot : String := "Cell already shot"

/-- `ShotError.GameAlreadyOver` from `errors.ts`. -/
def ShotErrorGameAlreadyOver : String := "Game is already over"

/-- `AttackError.NoAttackPlanned` from `errors.ts`. -/
def AttackErrorNoAttackPlanned : String := "No attack planned. Call planShot() first."

/-- Association list standing for a JS `Map<number, number>` with 0 as the
`|| 0` / `?? 0` default on lookups. -/
def natMapGet (m : List (Nat × Nat)) (k : Nat) : Nat :=
  match m.find? (fun p => p.1 == k) with
  | some p => p.2
  | none => 0

/-- `Map.set` semantics: replace the first binding of `k`, else append
(JS `Map` keeps insertion order). -/
def natMapSet (m : List (Nat × Nat)) (k v : Nat) : List (Nat × Nat) :=
  match m with
  | [] => [(k, v)]
  | p :: rest => if p.1 == k then (k, v) :: rest else p :: natMapSet rest k v

/-- Association list standing for the JS `Map<PositionKey, Shot>` keyed by
the packed `"x,y"` coordinate. -/
abbrev ShotsMap := List ((Int × Int) × Shot)

/-- `Map.get` on a shots map. -/
def shotsMapGet (m : ShotsMap) (x y : Int) : Option Shot :=
  match m.find? (fun p => p.1.1 == x && p.1.2 == y) with
  | some p => some p.2
  | none => none

/-- `Map.has` on a shots map. -/
def shotsMapHas (m : ShotsMap) (x y : Int) : Bool :=
  (shotsMapGet m x y).isSome

/-- `Map.set` on a shots map (replace first binding or append). -/
def shotsMapSet (m : ShotsMap) (x y : Int) (s : Shot) : ShotsMap :=
  match m with
  | [] => [((x, y), s)]
  | p :: rest =>
      if p.1.1 == x && p.1.2 == y then ((x, y), s) :: rest
      else p :: shotsMapSet rest x y s

/-- `getShip2DCells` from `calculations.ts`: row-major cells of a
width × height rectangle with top-left corner (x, y). -/
def getShip2DCells (x y : Int) (width height : Nat) : List (Int × Int) :=
  (List.range height).flatMap (fun row =>
    (List.range width).map (fun col => (x + col, y + row)))

/-- `getShipCellsFromShip` from `calculations.ts`. -/
def getShipCellsFromShip (ship : GameShip) : List (Int × Int) :=
  getShip2DCells ship.coordsX ship.coordsY ship.width ship.height

/-- The ship-position cache (`cacheShipPositions`) modelled as a derived
lookup: iterate ships in order and let `Map.set` overwrite, so the ship
with the largest index covering the cell wins. -/
def shipIdAt (ships : List GameShip) (x y : Int) : Option Nat :=
  ships.enum.foldl
    (fun acc p =>
      if (getShipCellsFromShip p.2).contains (x, y) then some p.1 else acc)
    none

/-- The ship-size cache (`sizesMap.set(shipId, cells.length)`) modelled as
a derived lookup. -/
def shipSize (ships : List GameShip) (shipId : Nat) : Option Nat :=
  (ships.get? shipId).map (fun s => (getShipCellsFromShip s).length)

/-- Cells of an item: `part` cells in a horizontal run starting at its
top-left coordinate (`cacheItemPositions`). -/
def itemCells (item : GameItem) : List (Int × Int) :=
  (List.range item.part).map (fun i => (item.coordsX + i, item.coordsY))

/-- The item-position cache modelled as a derived lookup (last item
covering the cell wins, mirroring `Map.set` overwrites). -/
def itemIdAt (items : List GameItem) (x y : Int) : Option Nat :=
  items.enum.foldl
    (fun acc p => if (itemCells p.2).contains (x, y) then some p.1 else acc)
    none

/-- Events emitted to the `GameEngineCallbacks` observers, in call order. -/
inductive EngineEvent
| stateChange
| turnChange (turn : GameTurn)
| shotFired (shot : Shot) (isPlayerShot : Bool)
| gameOverFired (winner : Winner)
deriving DecidableEq, Repr

/-- The mutable fields of the `GameEngine` class.  The position and size
caches are derived from the stored ship/item arrays (see the header). -/
structure EngineState where
  currentTurn : GameTurn
  playerShips : List GameShip
  enemyShips : List GameShip
  isGameOver : Bool
  winner : Winner
  boardWidth : Int
  boardHeight : Int
  shotCount : Nat
  playerShotsMap : ShotsMap
  enemyShotsMap : ShotsMap
  playerShipHits : List (Nat × Nat)
  enemyShipHits : List (Nat × Nat)
  playerItems : List GameItem
  enemyItems : List GameItem
  playerItemHits : List (Nat × Nat)
  enemyItemHits : List (Nat × Nat)
  playerCollectedItems : List Nat
  enemyCollectedItems : List Nat
deriving DecidableEq, Repr

/-- `GameEngine.isValidPosition`. -/
def isValidPosition (s : EngineState) (x y : Int) : Bool :=
  decide (0 ≤ x ∧ x < s.boardWidth ∧ 0 ≤ y ∧ y < s.boardHeight)

/-- `GameEngine.isCellShot`. -/
def isCellShot (s : EngineState) (x y : Int) (isPlayerShot : Bool) : Bool :=
  shotsMapHas (if isPlayerShot then s.playerShotsMap else s.enemyShotsMap) x y

/-- `GameEngine.getShotAtPosition`. -/
def getShotAtPosition (s : EngineState) (x y : Int) (isPlayerShot : Bool) : Option Shot :=
  shotsMapGet (if isPlayerShot then s.playerShotsMap else s.enemyShotsMap) x y

/-- `GameEngine.hasShipAtPosition`. -/
def hasShipAtPosition (s : EngineState) (x y : Int) (isPlayerShips : Bool) : Bool :=
  (shipIdAt (if isPlayerShips then s.playerShips else s.enemyShips) x y).isSome

/-- `GameEngine.checkShot`: pure hit test against the opposing ships.
Returns the hit flag and the TS ship id (or the `-1` sentinel). -/
def checkShot (s : EngineState) (x y : Int) (isPlayerShot : Bool) : Bool × Int :=
  match shipIdAt (if isPlayerShot then s.enemyShips else s.playerShips) x y with
  | some shipId => (true, (shipId : Int))
  | none => (false, -1)

/-- `GameEngine.isShipDestroyed`. -/
def isShipDestroyed (s : EngineState) (shipId : Nat) (isPlayerShot : Bool) : Bool :=
  let ships := if isPlayerShot then s.enemyShips else s.playerShips
  if ships.length ≤ shipId then false
  else
    let hits := natMapGet (if isPlayerShot then s.enemyShipHits else s.playerShipHits) shipId
    match shipSize ships shipId with
    | none => false
    | some size => hits == size

/-- `GameEngine.areAllShipsDestroyed`. -/
def areAllShipsDestroyed (s : EngineState) (isPlayerShips : Bool) : Bool :=
  let ships := if isPlayerShips then s.playerShips else s.enemyShips
  if ships.length == 0 then false
  else (List.range ships.length).all (fun shipId => isShipDestroyed s shipId !isPlayerShips)

/-- `GameEngine.collectItem`: try to collect an item at the cell; returns
the collection info (or `none`) next to the updated state. -/
def collectItem (s : EngineState) (x y : Int) (isPlayerShot : Bool) :
    Option ItemCollection × EngineState :=
  let items := if isPlayerShot then s.enemyItems else s.playerItems
  let itemHits := if isPlayerShot then s.enemyItemHits else s.playerItemHits
  let collectedSet := if isPlayerShot then s.enemyCollectedItems else s.playerCollectedItems
  match itemIdAt items x y with
  | none => (none, s)
  | some itemId =>
      if collectedSet.contains itemId then (none, s)
      else
        let currentHits := natMapGet itemHits itemId + 1
        let itemHits1 := natMapSet itemHits itemId currentHits
        let part := ((items.get? itemId).map GameItem.part).getD 0
        let itemFullyCollected := currentHits == part
        let collectedSet1 := if itemFullyCollected then collectedSet ++ [itemId] else collectedSet
        let s1 :=
          if isPlayerShot then
            { s with enemyItemHits := itemHits1, enemyCollectedItems := collectedSet1 }
          else
            { s with playerItemHits := itemHits1, playerCollectedItems := collectedSet1 }
        (some { collected := true, itemId := itemId, itemFullyCollected := itemFullyCollected }, s1)

/-- The optional `patternInfo` argument of the private `executeShot`. -/
structure PatternInfo where
  patternId : String
  centerX : Int
  centerY : Int
deriving DecidableEq, Repr

/-- `GameEngine.setGameOver`: unconditionally stores the winner, raises the
game-over flag, fires `onGameOver` and then `onStateChange`. -/
def setGameOver (s : EngineState) (winner : Winner) : EngineState × List EngineEvent :=
  ({ s with winner := winner, isGameOver := true },
   [EngineEvent.gameOverFired winner, EngineEvent.stateChange])

/-- `GameEngine.toggleTurn` (via `setPlayerTurn` / `setEnemyTurn`): flips
the turn, fires `onTurnChange` and then `onStateChange`. -/
def toggleTurn (s : EngineState) : EngineState × List EngineEvent :=
  let t := match s.currentTurn with
    | GameTurn.PLAYER_TURN => GameTurn.ENEMY_TURN
    | GameTurn.ENEMY_TURN => GameTurn.PLAYER_TURN
  ({ s with currentTurn := t }, [EngineEvent.turnChange t, EngineEvent.stateChange])

/-- The `Shot` record literal built inside `executeShot` (hoisted to a
named helper).  The TS `patternInfo?.centerX || x` fallback also applies
to a falsy (zero) center, which is mirrored here. -/
def shotRecordOf (x y : Int) (hit : Bool) (shipIdInt : Int)
    (patternInfo : Option PatternInfo) (itemCollection : Option ItemCollection) : Shot :=
  { x := x
    y := y
    hit := hit
    shipId := if 0 ≤ shipIdInt then some shipIdInt.toNat else none
    patternId := match patternInfo with
      | some info => if info.patternId == "" then "single" else info.patternId
      | none => "single"
    patternCenterX := match patternInfo with
      | some info => if info.centerX == 0 then x else info.centerX
      | none => x
    patternCenterY := match patternInfo with
      | some info => if info.centerY == 0 then y else info.centerY
      | none => y
    collected := itemCollection.isSome
    itemId := itemCollection.map ItemCollection.itemId
    itemFullyCollected := (itemCollection.map ItemCollection.itemFullyCollected).getD false }

/-- The `shotsMap.set(key, shot)` statement of `executeShot`. -/
def recordShot (s : EngineState) (isPlayerShot : Bool) (x y : Int) (shot : Shot) : EngineState :=
  if isPlayerShot then { s with playerShotsMap := shotsMapSet s.playerShotsMap x y shot }
  else { s with enemyShotsMap := shotsMapSet s.enemyShotsMap x y shot }

/-- The `if (result.hit && result.shipId >= 0)` hit-counter increment of
`executeShot`. -/
def bumpShipHits (s : EngineState) (isPlayerShot hit : Bool) (shipIdInt : Int) : EngineState :=
  if hit ∧ 0 ≤ shipIdInt then
    if isPlayerShot then
      { s with enemyShipHits :=
          natMapSet s.enemyShipHits shipIdInt.toNat (natMapGet s.enemyShipHits shipIdInt.toNat + 1) }
    else
      { s with playerShipHits :=
          natMapSet s.playerShipHits shipIdInt.toNat (natMapGet s.playerShipHits shipIdInt.toNat + 1) }
  else s

/-- The private `GameEngine.executeShot`: rejects an already-shot cell with
no state change, otherwise records the shot, increments the hit ship
counter or attempts item collection on a miss, bumps `shotCount`, fires
`onShot` (unless suppressed) and `onStateChange`. -/
def executeShot (s : EngineState) (x y : Int) (isPlayerShot : Bool)
    (suppressCallback : Bool) (patternInfo : Option PatternInfo) :
    ShotResult × EngineState × List EngineEvent :=
  if isCellShot s x y isPlayerShot then
    ({ success := false, error := some ShotErrorCellAlreadyShot, hit := false, shipId := -1 },
     s, [])
  else
    let result := checkShot s x y isPlayerShot
    let collectOut := if !result.1 then collectItem s x y isPlayerShot else (none, s)
    let itemCollection := collectOut.1
    let shot := shotRecordOf x y result.1 result.2 patternInfo itemCollection
    let s2 := recordShot collectOut.2 isPlayerShot x y shot
    let s3 := bumpShipHits s2 isPlayerShot result.1 result.2
    let s4 := { s3 with shotCount := s3.shotCount + 1 }
    let shotEvents := if !suppressCallback then [EngineEvent.shotFired shot isPlayerShot] else []
    let shipDestroyed :=
      if result.1 ∧ 0 ≤ result.2 then isShipDestroyed s4 result.2.toNat isPlayerShot else false
    ({ success := true
       hit := result.1
       shipId := result.2
       shipDestroyed := shipDestroyed
       isGameOver := s4.isGameOver
       winner := s4.winner
       collected := itemCollection.isSome
       itemId := itemCollection.map ItemCollection.itemId
       itemFullyCollected := (itemCollection.map ItemCollection.itemFullyCollected).getD false },
     s4, shotEvents ++ [EngineEvent.stateChange])

/-- The body of the `for (const offset of pattern.offsets)` loop in
`executeShotPattern`: classify the target cell as out of bounds (recorded
not-executed, no engine call), already shot (recorded not-executed,
surfacing the stored hit value) or fresh (shot executed). -/
def patternStep (centerX centerY : Int) (pattern : ShotPattern) (isPlayerShot : Bool)
    (acc : List PatternShot × EngineState × List EngineEvent) (offset : ShotOffset) :
    List PatternShot × EngineState × List EngineEvent :=
  let shots := acc.1
  let s := acc.2.1
  let evs := acc.2.2
  let targetX := centerX + offset.dx
  let targetY := centerY + offset.dy
  if !isValidPosition s targetX targetY then
    (shots ++ [{ x := targetX, y := targetY, hit := false, executed := false }], s, evs)
  else if isCellShot s targetX targetY isPlayerShot then
    let existingShot := getShotAtPosition s targetX targetY isPlayerShot
    (shots ++ [{ x := targetX
                 y := targetY
                 hit := ((existingShot.map Shot.hit).getD false)
                 shipId := existingShot.bind Shot.shipId
                 executed := false }], s, evs)
  else
    let out := executeShot s targetX targetY isPlayerShot true
      (some { patternId := pattern.id, centerX := centerX, centerY := centerY })
    let shotResult := out.1
    (shots ++ [{ x := targetX
                 y := targetY
                 hit := shotResult.hit
                 shipId := if 0 ≤ shotResult.shipId then some shotResult.shipId.toNat else none
                 shipDestroyed := shotResult.shipDestroyed
                 executed := true
                 patternId := some pattern.id
                 patternCenterX := some centerX
                 patternCenterY := some centerY
                 collected := shotResult.collected
                 itemId := shotResult.itemId
                 itemFullyCollected := shotResult.itemFullyCollected }],
     out.2.1, evs ++ out.2.2)

/-- `GameEngine.executeShotPattern`: fails outright when the game is
already over, otherwise processes every offset in order and finally fires
a single synthetic `onShot` at the pattern center whose hit flag and ship
id aggregate the executed shots. -/
def executeShotPattern (s : EngineState) (centerX centerY : Int) (pattern : ShotPattern)
    (isPlayerShot : Bool) : ShotPatternResult × EngineState × List EngineEvent :=
  if s.isGameOver then
    ({ success := false, error := some ShotErrorGameAlreadyOver, shots := [],
       isGameOver := true, winner := s.winner }, s, [])
  else
    let out := pattern.offsets.foldl (patternStep centerX centerY pattern isPlayerShot) ([], s, [])
    let shots := out.1
    let s1 := out.2.1
    let centerShot : Shot :=
      { x := centerX
        y := centerY
        hit := shots.any (fun e => e.hit && e.executed)
        shipId := (shots.find? (fun e => e.hit && e.executed)).bind PatternShot.shipId
        patternId := pattern.id
        patternCenterX := centerX
        patternCenterY := centerY }
    ({ success := true, shots := shots, isGameOver := s1.isGameOver, winner := s1.winner },
     s1, out.2.2 ++ [EngineEvent.shotFired centerShot isPlayerShot])

/-- `GameEngine.initializeGame`: resets every map and counter, stores the
placements and the starting turn, and notifies the state observers. -/
def initializeGame (playerShips enemyShips : List GameShip) (initialTurn : GameTurn)
    (playerItems enemyItems : List GameItem) (boardWidth boardHeight : Int) :
    EngineState × List EngineEvent :=
  ({ currentTurn := initialTurn
     playerShips := playerShips
     enemyShips := enemyShips
     isGameOver := false
     winner := none
     boardWidth := boardWidth
     boardHeight := boardHeight
     shotCount := 0
     playerShotsMap := []
     enemyShotsMap := []
     playerShipHits := []
     enemyShipHits := []
     playerItems := playerItems
     enemyItems := enemyItems
     playerItemHits := []
     enemyItemHits := []
     playerCollectedItems := []
     enemyCollectedItems := [] }, [EngineEvent.stateChange])

/-- The immutable snapshot returned by `GameEngine.getState`. -/
structure GameEngineView where
  currentTurn : GameTurn
  isPlayerTurn : Bool
  isEnemyTurn : Bool
  playerShips : List GameShip
  enemyShips : List GameShip
  playerShots : List Shot
  enemyShots : List Shot
  isGameOver : Bool
  winner : Winner
  boardWidth : Int
  boardHeight : Int
  shotCount : Nat
  areAllPlayerShipsDestroyed : Bool
  areAllEnemyShipsDestroyed : Bool
  playerItems : List GameItem
  enemyItems : List GameItem
  playerCollectedItems : List Nat
  enemyCollectedItems : List Nat
deriving DecidableEq, Repr

/-- `GameEngine.getState`. -/
def getState (s : EngineState) : GameEngineView :=
  { currentTurn := s.currentTurn
    isPlayerTurn := s.currentTurn == GameTurn.PLAYER_TURN
    isEnemyTurn := s.currentTurn == GameTurn.ENEMY_TURN
    playerShips := s.playerShips
    enemyShips := s.enemyShips
    playerShots := s.playerShotsMap.map Prod.snd
    enemyShots := s.enemyShotsMap.map Prod.snd
    isGameOver := s.isGameOver
    winner := s.winner
    boardWidth := s.boardWidth
    boardHeight := s.boardHeight
    shotCount := s.shotCount
    areAllPlayerShipsDestroyed := areAllShipsDestroyed s true
    areAllEnemyShipsDestroyed := areAllShipsDestroyed s false
    playerItems := s.playerItems
    enemyItems := s.enemyItems
    playerCollectedItems := s.playerCollectedItems
    enemyCollectedItems := s.enemyCollectedItems }

/-- The `MatchRuleSet` interface from `rulesets.ts`. -/
structure MatchRuleSet where
  name : String
  description : String
  decideTurn : ShotPatternResult → GameEngineView → TurnDecision
  checkGameOver : GameEngineView → GameOverDecision

/-- `ClassicRuleSet` from `rulesets.ts`: game-over short-circuit first,
then hit/destroyed aggregation over the executed shots. -/
def ClassicRuleSet : MatchRuleSet :=
  { name := "Classic"
    description := "Traditional battleship rules with hit continuation"
    decideTurn := fun attackResult currentState =>
      if currentState.isGameOver then
        { shouldEndTurn := true, shouldToggleTurn := false, canShootAgain := false,
          reason := "Game over" }
      else
        let anyHit := attackResult.shots.any (fun shot => shot.hit && shot.executed)
        let anyShipDestroyed := attackResult.shots.any (fun shot => shot.shipDestroyed && shot.executed)
        if anyHit then
          if anyShipDestroyed then
            { shouldEndTurn := true, shouldToggleTurn := true, canShootAgain := false,
              reason := "Ship destroyed - turn ends" }
          else
            { shouldEndTurn := false, shouldToggleTurn := false, canShootAgain := true,
              reason := "Hit - shoot again" }
        else
          { shouldEndTurn := true, shouldToggleTurn := true, canShootAgain := false,
            reason := "Miss - turn ends" }
    checkGameOver := fun state =>
      if state.areAllPlayerShipsDestroyed then
        { isGameOver := true, winner := some Player.enemy }
      else if state.areAllEnemyShipsDestroyed then
        { isGameOver := true, winner := some Player.player }
      else
        { isGameOver := false, winner := none } }

/-- `AlternatingTurnsRuleSet` from `rulesets.ts`: every resolved attack
ends the turn, with the same game-over short-circuit. -/
def AlternatingTurnsRuleSet : MatchRuleSet :=
  { name := "Alternating"
    description := "Every shot ends turn, no hit continuation"
    decideTurn := fun attackResult currentState =>
      if currentState.isGameOver then
        { shouldEndTurn := true, shouldToggleTurn := false, canShootAgain := false,
          reason := "Game over" }
      else
        let anyHit := attackResult.shots.any (fun shot => shot.hit && shot.executed)
        { shouldEndTurn := true, shouldToggleTurn := true, canShootAgain := false,
          reason := if anyHit then "Hit - turn ends" else "Miss - turn ends" }
    checkGameOver := fun state =>
      if state.areAllPlayerShipsDestroyed then
        { isGameOver := true, winner := some Player.enemy }
      else if state.areAllEnemyShipsDestroyed then
        { isGameOver := true, winner := some Player.player }
      else
        { isGameOver := false, winner := none } }

/-- `DefaultRuleSet` is `ClassicRuleSet`. -/
def DefaultRuleSet : MatchRuleSet := ClassicRuleSet

/-- `SINGLE_SHOT` from `shotPatterns.ts`. -/
def SINGLE_SHOT : ShotPattern :=
  { id := "single", offsets := [{ dx := 0, dy := 0 }] }

/-- `CROSS_SHOT` from `shotPatterns.ts`. -/
def CROSS_SHOT : ShotPattern :=
  { id := "cross"
    offsets := [{ dx := 0, dy := 0 }, { dx := -1, dy := 0 }, { dx := 1, dy := 0 },
                { dx := 0, dy := -1 }, { dx := 0, dy := 1 }] }

/-- A planned attack awaiting confirmation (`PendingPlan`). -/
structure PendingPlan where
  centerX : Int
  centerY : Int
  pattern : ShotPattern
  isPlayerShot : Bool
deriving DecidableEq, Repr

/-- Context of the xstate `matchMachine` (the engine reference plus the
metadata the machine stores between actions). -/
structure MachineCtx where
  engine : EngineState
  ruleSet : MatchRuleSet
  pendingPlan : Option PendingPlan
  lastAttackResult : Option ShotPatternResult
  lastTurnDecision : Option TurnDecision

/-- The `executeAttack` action of `matchMachine.ts`: fire the pending
pattern in the engine, store `lastAttackResult`, clear the plan. -/
def executeAttack (c : MachineCtx) : MachineCtx :=
  match c.pendingPlan with
  | none => c
  | some plan =>
      let out := executeShotPattern c.engine plan.centerX plan.centerY plan.pattern plan.isPlayerShot
      { c with engine := out.2.1, pendingPlan := none, lastAttackResult := some out.1 }

/-- The `resolveTurn` action of `matchMachine.ts`: ask the ruleset for the
turn decision, toggle if required, then (only when not already over) ask
the ruleset for game over and set it in the engine. -/
def resolveTurn (c : MachineCtx) : MachineCtx :=
  match c.lastAttackResult with
  | none => c
  | some lastAttackResult =>
      let stateAfterAttack := getState c.engine
      let lastTurnDecision := c.ruleSet.decideTurn lastAttackResult stateAfterAttack
      let engine1 := if lastTurnDecision.shouldToggleTurn then (toggleTurn c.engine).1 else c.engine
      let stateAfterTurn := getState engine1
      let engine2 :=
        if !stateAfterTurn.isGameOver then
          let gameOverDecision := c.ruleSet.checkGameOver stateAfterTurn
          if gameOverDecision.isGameOver && gameOverDecision.winner.isSome then
            (setGameOver engine1 gameOverDecision.winner).1
          else engine1
        else engine1
      { c with engine := engine2, lastTurnDecision := some lastTurnDecision }

/-- The phase tags of the plan/confirm `Match` coordinator. -/
inductive MatchPhase
| PLAN
| ATTACK
| TURN
| START
| IDLE
deriving DecidableEq, Repr

/-- The mutable fields of the plan/confirm `Match` class. -/
structure MatchState where
  engine : EngineState
  ruleSet : MatchRuleSet
  phase : MatchPhase
  pendingPlan : Option PendingPlan

/-- The private `Match.checkGameOver`: returns immediately when the
snapshot already reports game over, otherwise consults the ruleset and
(on a decided winner) sets game over in the engine. -/
def matchCheckGameOver (m : MatchState) : MatchState × List EngineEvent :=
  let state := getState m.engine
  if state.isGameOver then (m, [])
  else
    let decision := m.ruleSet.checkGameOver state
    if decision.isGameOver && decision.winner.isSome then
      let out := setGameOver m.engine decision.winner
      ({ m with engine := out.1 }, out.2)
    else (m, [])

/-- The engine `toggleTurn` as observed through `Match`: the constructor
wires `onTurnChange` to run `Match.checkGameOver` before forwarding the
turn notification, and the engine then issues its own state notification. -/
def matchToggleTurn (m : MatchState) : MatchState × List EngineEvent :=
  let out := toggleTurn m.engine
  let m1 := { m with engine := out.1 }
  let afterCheck := matchCheckGameOver m1
  (afterCheck.1,
   afterCheck.2 ++ [EngineEvent.turnChange out.1.currentTurn, EngineEvent.stateChange])

/-- `PlanPhaseResult` of `Match.planShot`. -/
structure PlanPhaseResult where
  ready : Bool
  error : Option String := none
  pattern : Option ShotPattern := none
  centerX : Option Int := none
  centerY : Option Int := none
deriving DecidableEq, Repr

/-- `Match.planShot`: validates the center (and, for single-cell patterns,
cell freshness) and stores the pending plan. -/
def planShot (m : MatchState) (centerX centerY : Int) (pattern : ShotPattern)
    (isPlayerShot : Bool) : PlanPhaseResult × MatchState :=
  let m0 := { m with phase := MatchPhase.PLAN }
  if !isValidPosition m0.engine centerX centerY then
    ({ ready := false, error := some "Invalid position" }, m0)
  else if pattern.id == "single" && isCellShot m0.engine centerX centerY isPlayerShot then
    ({ ready := false, error := some "Cell already shot" }, m0)
  else
    let plan : PendingPlan :=
      { centerX := centerX, centerY := centerY, pattern := pattern, isPlayerShot := isPlayerShot }
    ({ ready := true, pattern := some pattern, centerX := some centerX, centerY := some centerY },
     { m0 with pendingPlan := some plan })

/-- `Match.cancelPlan`: drops the pending plan and returns to IDLE. -/
def cancelPlan (m : MatchState) : MatchState :=
  { m with pendingPlan := none, phase := MatchPhase.IDLE }

/-- `MatchShotPatternResult` returned by `Match.confirmAttack`. -/
structure MatchShotPatternResult where
  success : Bool
  error : Option String := none
  shots : List PatternShot
  isGameOver : Bool
  winner : Winner
  turnEnded : Bool
  canShootAgain : Bool
  reason : String
  phase : MatchPhase
deriving DecidableEq, Repr

/-- `Match.phaseAttackPattern`: set the ATTACK phase, run the pattern in
the engine, then run `Match.checkGameOver`. -/
def phaseAttackPattern (m : MatchState) (centerX centerY : Int) (pattern : ShotPattern)
    (isPlayerShot : Bool) : ShotPatternResult × MatchState × List EngineEvent :=
  let m0 := { m with phase := MatchPhase.ATTACK }
  let out := executeShotPattern m0.engine centerX centerY pattern isPlayerShot
  let m1 := { m0 with engine := out.2.1 }
  let afterCheck := matchCheckGameOver m1
  (out.1, afterCheck.1, out.2.2 ++ afterCheck.2)

/-- Outcome of `Match.phaseTurnPattern`. -/
structure TurnPhaseResult where
  turnEnded : Bool
  canShootAgain : Bool
  reason : String
  isGameOver : Bool
  winner : Winner
deriving DecidableEq, Repr

/-- The synthetic single-shot aggregate built inside
`Match.phaseTurnPattern`: `anyHit` and `anyShipDestroyed` range over ALL
recorded shots — the source applies no `executed` filter on this path —
and `shipId` is the id of the first shot whose hit flag is set (executed
or not), with the `-1` sentinel and the `?? -1` fallback for a missing
ship id. -/
def syntheticPatternShotResult (attackResult : ShotPatternResult) : ShotResult :=
  { success := attackResult.success
    error := attackResult.error
    hit := attackResult.shots.any (fun shot => shot.hit)
    shipId := match (attackResult.shots.find? (fun shot => shot.hit)).bind PatternShot.shipId with
      | some id => (id : Int)
      | none => -1
    shipDestroyed := attackResult.shots.any (fun shot => shot.shipDestroyed)
    isGameOver := attackResult.isGameOver
    winner := attackResult.winner }

/-- `Match.phaseTurnPattern`: set the TURN phase, build the synthetic
aggregate result (`syntheticPatternShotResult`, whose `hit` /
`shipDestroyed` scalars range over all recorded shots with no `executed`
filter) and consult the ruleset, toggling the turn on demand.  The
synthetic object carries no `shots` array: the in-repo shots-based
rulesets read `attackResult.shots`, which JS leaves `undefined` here, so
outside the game-over short-circuit the composite would fault at runtime.
The missing array is modelled as `[]`; every turn-decision theorem below
that exercises this path stays within the game-over priority branch of
`decideTurn`, which inspects neither the shots nor the scalar
aggregates. -/
def phaseTurnPattern (m : MatchState) (attackResult : ShotPatternResult) :
    TurnPhaseResult × MatchState × List EngineEvent :=
  let m0 := { m with phase := MatchPhase.TURN }
  let state := getState m0.engine
  let synthetic := syntheticPatternShotResult attackResult
  let syntheticForRuleSet : ShotPatternResult :=
    { success := synthetic.success
      error := synthetic.error
      shots := []
      isGameOver := synthetic.isGameOver
      winner := synthetic.winner }
  let decision := m0.ruleSet.decideTurn syntheticForRuleSet state
  let afterToggle :=
    if decision.shouldToggleTurn then matchToggleTurn m0 else (m0, [])
  ({ turnEnded := decision.shouldEndTurn
     canShootAgain := decision.canShootAgain
     reason := decision.reason
     isGameOver := state.isGameOver
     winner := state.winner }, afterToggle.1, afterToggle.2)

/-- `Match.confirmAttack`: with no pending plan, fail with
`NoAttackPlanned` touching nothing; otherwise run the attack phase, clear
the plan and resolve the turn phase. -/
def confirmAttack (m : MatchState) : MatchShotPatternResult × MatchState × List EngineEvent :=
  match m.pendingPlan with
  | none =>
      ({ success := false
         error := some AttackErrorNoAttackPlanned
         shots := []
         isGameOver := (getState m.engine).isGameOver
         winner := m.engine.winner
         turnEnded := false
         canShootAgain := false
         reason := "No attack planned"
         phase := MatchPhase.ATTACK }, m, [])
  | some plan =>
      let attackOut := phaseAttackPattern m plan.centerX plan.centerY plan.pattern plan.isPlayerShot
      let attackResult := attackOut.1
      let m1 := { attackOut.2.1 with pendingPlan := none }
      if !attackResult.success then
        ({ success := attackResult.success
           error := attackResult.error
           shots := attackResult.shots
           isGameOver := attackResult.isGameOver
           winner := attackResult.winner
           turnEnded := false
           canShootAgain := false
           reason := attackResult.error.getD "Attack failed"
           phase := MatchPhase.ATTACK }, m1, attackOut.2.2)
      else
        let turnOut := phaseTurnPattern m1 attackResult
        let turnResult := turnOut.1
        ({ success := attackResult.success
           error := attackResult.error
           shots := attackResult.shots
           isGameOver := turnResult.isGameOver
           winner := turnResult.winner
           turnEnded := turnResult.turnEnded
           canShootAgain := turnResult.canShootAgain
           reason := turnResult.reason
           phase := MatchPhase.TURN }, turnOut.2.1, attackOut.2.2 ++ turnOut.2.2)

/-- The engine mutators reachable through the coordinators during a match
(pattern attack, turn toggle, game-over assignment).  `initializeGame` and
`resetGame` start a fresh state and are the reachability base instead. -/
inductive EngOp
| pattern (centerX centerY : Int) (p : ShotPattern) (isPlayerShot : Bool)
| toggle
| setOver (winner : Winner)
deriving Repr

/-- Apply one engine operation (dropping result and events). -/
def applyOp (op : EngOp) (s : EngineState) : EngineState :=
  match op with
  | EngOp.pattern centerX centerY p isPlayerShot =>
      (executeShotPattern s centerX centerY p isPlayerShot).2.1
  | EngOp.toggle => (toggleTurn s).1
  | EngOp.setOver winner => (setGameOver s winner).1

/-- Apply a list of engine operations in order. -/
def runOps (ops : List EngOp) (s : EngineState) : EngineState :=
  ops.foldl (fun s op => applyOp op s) s


/-- The `isPlayerShot ? playerShotsMap : enemyShotsMap` selection used by
`executeShot` / `isCellShot` / `getShotAtPosition`. -/
def sideShotsMap (s : EngineState) (isPlayerShot : Bool) : ShotsMap :=
  if isPlayerShot then s.playerShotsMap else s.enemyShotsMap

/-- The `isPlayerShot ? enemyShipHits : playerShipHits` selection used by
`executeShot` / `isShipDestroyed`. -/
def sideHitsMap (s : EngineState) (isPlayerShot : Bool) : List (Nat × Nat) :=
  if isPlayerShot then s.enemyShipHits else s.playerShipHits

/-- The `isPlayerShot ? enemyShips : playerShips` selection used by
`checkShot` / `isShipDestroyed` (the attacked ships). -/
def sideTargetShips (s : EngineState) (isPlayerShot : Bool) : List GameShip :=
  if isPlayerShot then s.enemyShips else s.playerShips

/-- The `isPlayerShot ? enemyItems : playerItems` selection used by
`collectItem` (the attacked items). -/
def sideTargetItems (s : EngineState) (isPlayerShot : Bool) : List GameItem :=
  if isPlayerShot then s.enemyItems else s.playerItems

/-- The `isPlayerShot ? enemyItemHits : playerItemHits` selection used by
`collectItem`. -/
def sideItemHits (s : EngineState) (isPlayerShot : Bool) : List (Nat × Nat) :=
  if isPlayerShot then s.enemyItemHits else s.playerItemHits

/-- The `isPlayerShot ? enemyCollectedItems : playerCollectedItems`
selection used by `collectItem`. -/
def sideCollectedItems (s : EngineState) (isPlayerShot : Bool) : List Nat :=
  if isPlayerShot then s.enemyCollectedItems else s.playerCollectedItems

/-- The decision every ruleset must short-circuit to once the snapshot
reports game over. -/
def gameOverTurnDecision : TurnDecision :=
  { shouldEndTurn := true, shouldToggleTurn := false, canShootAgain := false,
    reason := "Game over" }

/-- The binding priority rule of the spec: a ruleset short-circuits to
`gameOverTurnDecision` whenever the snapshot already reports game over. -/
def rsGameOverPriority (rs : MatchRuleSet) : Prop :=
  ∀ (attackResult : ShotPatternResult) (st : GameEngineView),
    st.isGameOver = true → rs.decideTurn attackResult st = gameOverTurnDecision

/-- Recognizer for the `onShot` events in an event trace. -/
def isShotFired : EngineEvent → Bool
  | EngineEvent.shotFired _ _ => true
  | _ => false

/-- Recognizer for the `onGameOver` events in an event trace. -/
def isGameOverFired : EngineEvent → Bool
  | EngineEvent.gameOverFired _ => true
  | _ => false

/-- A 10×10 board with no ships and no items (used in witnesses). -/
def demoEmpty : EngineState :=
  (initializeGame [] [] GameTurn.PLAYER_TURN [] [] 10 10).1

/-- The Scenario A enemy ship: (5,5), width 2, height 1. -/
def demoShip : GameShip := { coordsX := 5, coordsY := 5, width := 2, height := 1 }

/-- A 10×10 board whose only enemy ship is `demoShip`. -/
def demoBoardA : EngineState :=
  (initializeGame [] [demoShip] GameTurn.PLAYER_TURN [] [] 10 10).1

/-- Machine context ready to confirm the first Scenario A shot. -/
def demoCtxA : MachineCtx :=
  { engine := demoBoardA, ruleSet := ClassicRuleSet,
    pendingPlan := some { centerX := 5, centerY := 5, pattern := SINGLE_SHOT, isPlayerShot := true },
    lastAttackResult := none, lastTurnDecision := none }

/-- Machine context after the first Scenario A shot at (5,5). -/
def demoCtxA1 : MachineCtx := resolveTurn (executeAttack demoCtxA)

/-- Machine context after the second Scenario A shot at (6,5). -/
def demoCtxA2 : MachineCtx :=
  let plan2 : PendingPlan :=
    { centerX := 6, centerY := 5, pattern := SINGLE_SHOT, isPlayerShot := true }
  resolveTurn (executeAttack { demoCtxA1 with pendingPlan := some plan2 })

/-- A single-cell enemy ship at (5,5) (one shot finishes the match). -/
def demoTinyShip : GameShip := { coordsX := 5, coordsY := 5, width := 1, height := 1 }

/-- A 10×10 board whose only enemy ship is the single-cell `demoTinyShip`. -/
def demoBoardT : EngineState :=
  (initializeGame [] [demoTinyShip] GameTurn.PLAYER_TURN [] [] 10 10).1

/-- Match coordinator about to confirm the finishing shot on `demoBoardT`. -/
def demoMatchT : MatchState :=
  { engine := demoBoardT, ruleSet := ClassicRuleSet, phase := MatchPhase.IDLE,
    pendingPlan := some { centerX := 5, centerY := 5, pattern := SINGLE_SHOT, isPlayerShot := true } }

/-- Match coordinator with no pending plan on the empty board. -/
def demoMatchE0 : MatchState :=
  { engine := demoEmpty, ruleSet := ClassicRuleSet, phase := MatchPhase.IDLE,
    pendingPlan := none }

/-- Scenario E step 1: `planShot(5,5,CROSS,true)`. -/
def demoMatchE1 : MatchState := (planShot demoMatchE0 5 5 CROSS_SHOT true).2

/-- Scenario E step 2: `cancelPlan()`. -/
def demoMatchE2 : MatchState := cancelPlan demoMatchE1

/-- A game-over state with the player recorded as winner (used to exhibit
the behaviour of a second `setGameOver` call). -/
def demoOverState : EngineState :=
  { demoBoardT with isGameOver := true, winner := some Player.player }

/-- The Scenario D enemy item: (5,7)-(7,7), `part` 3. -/
def demoItem : GameItem := { coordsX := 5, coordsY := 7, part := 3 }

/-- A 10×10 board whose only enemy item is `demoItem`. -/
def demoBoardI : EngineState :=
  (initializeGame [] [] GameTurn.PLAYER_TURN [] [demoItem] 10 10).1

/-- Match coordinator over an already-finished board. -/
def demoMatchOver : MatchState :=
  { engine := demoOverState, ruleSet := ClassicRuleSet, phase := MatchPhase.IDLE,
    pendingPlan := none }

/-- Machine context over an already-finished board with a stored attack. -/
def demoCtxOver : MachineCtx :=
  { engine := demoOverState, ruleSet := ClassicRuleSet, pendingPlan := none,
    lastAttackResult := some { success := true, shots := [], isGameOver := true,
                               winner := some Player.player },
    lastTurnDecision := none }

/-- A pattern result restricted to its executed shots. -/
def executedSubset (ar : ShotPatternResult) : ShotPatternResult :=
  { ar with shots := ar.shots.filter (fun sh => sh.executed) }

/-- All items have at least one part (the placement generator invariant
assumed by the spec). -/
def itemsOk (items : List GameItem) : Prop :=
  ∀ item ∈ items, 1 ≤ item.part

/-- Item accounting invariant for one board side: every counter is bounded
by the item part count and membership in the collected set means exactly
that the counter reached it. -/
def itemInvSide (items : List GameItem) (hits : List (Nat × Nat)) (collected : List Nat) : Prop :=
  ∀ (id : Nat) (item : GameItem), items.get? id = some item →
    natMapGet hits id ≤ item.part ∧
    (collected.contains id = true ↔ natMapGet hits id = item.part)

/-- Item accounting invariant of an engine state (both boards). -/
def itemInv (s : EngineState) : Prop :=
  itemsOk s.playerItems ∧ itemsOk s.enemyItems ∧
  itemInvSide s.playerItems s.playerItemHits s.playerCollectedItems ∧
  itemInvSide s.enemyItems s.enemyItemHits s.enemyCollectedItems

/-- Ship hit accounting invariant for one attacked fleet: the stored hit
counter of every ship equals the number of its cells that are assigned to
it by the position cache and already shot by the attacker. -/
def hitsInvSide (ships : List GameShip) (hits : List (Nat × Nat)) (shots : ShotsMap) : Prop :=
  ∀ (id : Nat) (ship : GameShip), ships.get? id = some ship →
    natMapGet hits id =
      ((getShipCellsFromShip ship).filter
        (fun c => (shipIdAt ships c.1 c.2 == some id) && shotsMapHas shots c.1 c.2)).length

/-- Ship hit accounting invariant of an engine state (both fleets). -/
def shipHitsInv (s : EngineState) : Prop :=
  hitsInvSide s.enemyShips s.enemyShipHits s.playerShotsMap ∧
  hitsInvSide s.playerShips s.playerShipHits s.enemyShotsMap

theorem natMapGet_set_self (m : List (Nat × Nat)) (k v : Nat) :
    natMapGet (natMapSet m k v) k = v := by
  induction m with
  | nil => simp [natMapGet, natMapSet]
  | cons p rest ih =>
      by_cases h : p.1 = k
      · simp [natMapSet, h, natMapGet]
      · simp only [natMapSet, h]
        simp only [natMapGet, List.find?] at ih ⊢
        simp [h, ih]

theorem natMapGet_set_ne (m : List (Nat × Nat)) (k v k2 : Nat) (h : k2 ≠ k) :
    natMapGet (natMapSet m k v) k2 = natMapGet m k2 := by
  induction m with
  | nil => simp [natMapGet, natMapSet, Ne.symm h]
  | cons p rest ih =>
      by_cases hp : p.1 = k
      · simp [natMapSet, hp, natMapGet, Ne.symm h]
      · simp only [natMapSet, hp, if_neg]
        simp only [natMapGet, List.find?] at ih ⊢
        by_cases hk2 : p.1 = k2
        · simp [hk2, hp, h, ih]
        · have hbeq : (p.1 == k2) = false := by simpa using hk2
          simp [hk2, hp, h, hbeq, ih]


theorem shotsMapGet_set_self (m : ShotsMap) (x y : Int) (sh : Shot) :
    shotsMapGet (shotsMapSet m x y sh) x y = some sh := by
  induction m with
  | nil => simp [shotsMapGet, shotsMapSet]
  | cons p rest ih =>
      by_cases h : p.1.1 = x ∧ p.1.2 = y
      · simp [shotsMapSet, h.1, h.2, shotsMapGet]
      · have hb : (p.1.1 == x && p.1.2 == y) = false := by
          rcases not_and_or.mp h with h1 | h1 <;> simp [h1]
        simp only [shotsMapSet, hb]
        simp only [shotsMapGet, List.find?] at ih ⊢
        simp [hb, ih]

theorem shotsMapGet_set_ne (m : ShotsMap) (x y : Int) (sh : Shot) (x2 y2 : Int)
    (h : ¬(x2 = x ∧ y2 = y)) :
    shotsMapGet (shotsMapSet m x y sh) x2 y2 = shotsMapGet m x2 y2 := by
  have hb2 : (x == x2 && y == y2) = false := by
    rcases not_and_or.mp h with h1 | h1
    · have hx : (x == x2) = false := by
        simp only [beq_eq_false_iff_ne, ne_eq]
        exact fun he => h1 he.symm
      simp [hx]
    · have hy : (y == y2) = false := by
        simp only [beq_eq_false_iff_ne, ne_eq]
        exact fun he => h1 he.symm
      simp [hy]
  induction m with
  | nil =>
      simp only [shotsMapSet, shotsMapGet, List.find?]
      simp [hb2]
  | cons p rest ih =>
      by_cases hp : p.1.1 = x ∧ p.1.2 = y
      · have hpb : (p.1.1 == x2 && p.1.2 == y2) = false := by
          rw [hp.1, hp.2]; exact hb2
        simp only [shotsMapSet, hp.1, hp.2]
        simp only [beq_self_eq_true, Bool.and_self, if_true]
        simp only [shotsMapGet, List.find?]
        simp [hb2, hpb]
      · have hb : (p.1.1 == x && p.1.2 == y) = false := by
          rcases not_and_or.mp hp with h1 | h1 <;> simp [h1]
        simp only [shotsMapSet, hb]
        simp only [Bool.false_eq_true, if_false]
        simp only [shotsMapGet, List.find?] at ih ⊢
        by_cases hk : (p.1.1 == x2 && p.1.2 == y2) = true
        · simp [hk]
        · simp only [Bool.not_eq_true] at hk
          simp [hk, ih]

/-- `collectItem` leaves `currentTurn` untouched. -/
@[simp] theorem collectItem_currentTurn (s : EngineState) (x y : Int) (side : Bool) :
    (collectItem s x y side).2.currentTurn = s.currentTurn := by
  unfold collectItem
  cases side <;> simp only [Bool.false_eq_true, if_false, if_true, ite_true, ite_false] <;>
    (split <;> [skip; split] <;> simp)

/-- `collectItem` leaves `playerShips` untouched. -/
@[simp] theorem collectItem_playerShips (s : EngineState) (x y : Int) (side : Bool) :
    (collectItem s x y side).2.playerShips = s.playerShips := by
  unfold collectItem
  cases side <;> simp only [Bool.false_eq_true, if_false, if_true, ite_true, ite_false] <;>
    (split <;> [skip; split] <;> simp)

/-- `collectItem` leaves `enemyShips` untouched. -/
@[simp] theorem collectItem_enemyShips (s : EngineState) (x y : Int) (side : Bool) :
    (collectItem s x y side).2.enemyShips = s.enemyShips := by
  unfold collectItem
  cases side <;> simp only [Bool.false_eq_true, if_false, if_true, ite_true, ite_false] <;>
    (split <;> [skip; split] <;> simp)

/-- `collectItem` leaves `isGameOver` untouched. -/
@[simp] theorem collectItem_isGameOver (s : EngineState) (x y : Int) (side : Bool) :
    (collectItem s x y side).2.isGameOver = s.isGameOver := by
  unfold collectItem
  cases side <;> simp only [Bool.false_eq_true, if_false, if_true, ite_true, ite_false] <;>
    (split <;> [skip; split] <;> simp)

/-- `collectItem` leaves `winner` untouched. -/
@[simp] theorem collectItem_winner (s : EngineState) (x y : Int) (side : Bool) :
    (collectItem s x y side).2.winner = s.winner := by
  unfold collectItem
  cases side <;> simp only [Bool.false_eq_true, if_false, if_true, ite_true, ite_false] <;>
    (split <;> [skip; split] <;> simp)

/-- `collectItem` leaves `boardWidth` untouched. -/
@[simp] theorem collectItem_boardWidth (s : EngineState) (x y : Int) (side : Bool) :
    (collectItem s x y side).2.boardWidth = s.boardWidth := by
  unfold collectItem
  cases side <;> simp only [Bool.false_eq_true, if_false, if_true, ite_true, ite_false] <;>
    (split <;> [skip; split] <;> simp)

/-- `collectItem` leaves `boardHeight` untouched. -/
@[simp] theorem collectItem_boardHeight (s : EngineState) (x y : Int) (side : Bool) :
    (collectItem s x y side).2.boardHeight = s.boardHeight := by
  unfold collectItem
  cases side <;> simp only [Bool.false_eq_true, if_false, if_true, ite_true, ite_false] <;>
    (split <;> [skip; split] <;> simp)

/-- `collectItem` leaves `shotCount` untouched. -/
@[simp] theorem collectItem_shotCount (s : EngineState) (x y : Int) (side : Bool) :
    (collectItem s x y side).2.shotCount = s.shotCount := by
  unfold collectItem
  cases side <;> simp only [Bool.false_eq_true, if_false, if_true, ite_true, ite_false] <;>
    (split <;> [skip; split] <;> simp)

/-- `collectItem` leaves `playerShotsMap` untouched. -/
@[simp] theorem collectItem_playerShotsMap (s : EngineState) (x y : Int) (side : Bool) :
    (collectItem s x y side).2.playerShotsMap = s.playerShotsMap := by
  unfold collectItem
  cases side <;> simp only [Bool.false_eq_true, if_false, if_true, ite_true, ite_false] <;>
    (split <;> [skip; split] <;> simp)

/-- `collectItem` leaves `enemyShotsMap` untouched. -/
@[simp] theorem collectItem_enemyShotsMap (s : EngineState) (x y : Int) (side : Bool) :
    (collectItem s x y side).2.enemyShotsMap = s.enemyShotsMap := by
  unfold collectItem
  cases side <;> simp only [Bool.false_eq_true, if_false, if_true, ite_true, ite_false] <;>
    (split <;> [skip; split] <;> simp)

/-- `collectItem` leaves `playerShipHits` untouched. -/
@[simp] theorem collectItem_playerShipHits (s : EngineState) (x y : Int) (side : Bool) :
    (collectItem s x y side).2.playerShipHits = s.playerShipHits := by
  unfold collectItem
  cases side <;> simp only [Bool.false_eq_true, if_false, if_true, ite_true, ite_false] <;>
    (split <;> [skip; split] <;> simp)

/-- `collectItem` leaves `enemyShipHits` untouched. -/
@[simp] theorem collectItem_enemyShipHits (s : EngineState) (x y : Int) (side : Bool) :
    (collectItem s x y side).2.enemyShipHits = s.enemyShipHits := by
  unfold collectItem
  cases side <;> simp only [Bool.false_eq_true, if_false, if_true, ite_true, ite_false] <;>
    (split <;> [skip; split] <;> simp)

/-- `collectItem` leaves `playerItems` untouched. -/
@[simp] theorem collectItem_playerItems (s : EngineState) (x y : Int) (side : Bool) :
    (collectItem s x y side).2.playerItems = s.playerItems := by
  unfold collectItem
  cases side <;> simp only [Bool.false_eq_true, if_false, if_true, ite_true, ite_false] <;>
    (split <;> [skip; split] <;> simp)

/-- `collectItem` leaves `enemyItems` untouched. -/
@[simp] theorem collectItem_enemyItems (s : EngineState) (x y : Int) (side : Bool) :
    (collectItem s x y side).2.enemyItems = s.enemyItems := by
  unfold collectItem
  cases side <;> simp only [Bool.false_eq_true, if_false, if_true, ite_true, ite_false] <;>
    (split <;> [skip; split] <;> simp)

/-- A binding present in a shots map survives any `set` of a fresh key. -/
theorem shotsMapGet_set_preserved (m : ShotsMap) (x y : Int) (sh : Shot) (a b : Int)
    (hpresent : (shotsMapGet m a b).isSome) (hfresh : shotsMapHas m x y = false) :
    shotsMapGet (shotsMapSet m x y sh) a b = shotsMapGet m a b := by
  apply shotsMapGet_set_ne
  rintro ⟨rfl, rfl⟩
  rw [shotsMapHas] at hfresh
  rw [hfresh] at hpresent
  exact Bool.noConfusion hpresent

/-- `Map.set` never removes a key. -/
theorem shotsMapHas_set_mono (m : ShotsMap) (x y : Int) (sh : Shot) (a b : Int)
    (h : shotsMapHas m a b = true) :
    shotsMapHas (shotsMapSet m x y sh) a b = true := by
  by_cases hab : a = x ∧ b = y
  · rw [hab.1, hab.2, shotsMapHas, shotsMapGet_set_self]
    rfl
  · rw [shotsMapHas, shotsMapGet_set_ne m x y sh a b hab]
    exact h

/-- `recordShot` only touches the shots maps. -/
@[simp] theorem recordShot_currentTurn (s : EngineState) (side : Bool) (x y : Int) (sh : Shot) :
    (recordShot s side x y sh).currentTurn = s.currentTurn := by
  unfold recordShot
  cases side <;> simp

/-- `recordShot` only touches the shots maps. -/
@[simp] theorem recordShot_playerShips (s : EngineState) (side : Bool) (x y : Int) (sh : Shot) :
    (recordShot s side x y sh).playerShips = s.playerShips := by
  unfold recordShot
  cases side <;> simp

/-- `recordShot` only touches the shots maps. -/
@[simp] theorem recordShot_enemyShips (s : EngineState) (side : Bool) (x y : Int) (sh : Shot) :
    (recordShot s side x y sh).enemyShips = s.enemyShips := by
  unfold recordShot
  cases side <;> simp

/-- `recordShot` only touches the shots maps. -/
@[simp] theorem recordShot_isGameOver (s : EngineState) (side : Bool) (x y : Int) (sh : Shot) :
    (recordShot s side x y sh).isGameOver = s.isGameOver := by
  unfold recordShot
  cases side <;> simp

/-- `recordShot` only touches the shots maps. -/
@[simp] theorem recordShot_winner (s : EngineState) (side : Bool) (x y : Int) (sh : Shot) :
    (recordShot s side x y sh).winner = s.winner := by
  unfold recordShot
  cases side <;> simp

/-- `recordShot` only touches the shots maps. -/
@[simp] theorem recordShot_boardWidth (s : EngineState) (side : Bool) (x y : Int) (sh : Shot) :
    (recordShot s side x y sh).boardWidth = s.boardWidth := by
  unfold recordShot
  cases side <;> simp

/-- `recordShot` only touches the shots maps. -/
@[simp] theorem recordShot_boardHeight (s : EngineState) (side : Bool) (x y : Int) (sh : Shot) :
    (recordShot s side x y sh).boardHeight = s.boardHeight := by
  unfold recordShot
  cases side <;> simp

/-- `recordShot` only touches the shots maps. -/
@[simp] theorem recordShot_shotCount (s : EngineState) (side : Bool) (x y : Int) (sh : Shot) :
    (recordShot s side x y sh).shotCount = s.shotCount := by
  unfold recordShot
  cases side <;> simp

/-- `recordShot` only touches the shots maps. -/
@[simp] theorem recordShot_playerShipHits (s : EngineState) (side : Bool) (x y : Int) (sh : Shot) :
    (recordShot s side x y sh).playerShipHits = s.playerShipHits := by
  unfold recordShot
  cases side <;> simp

/-- `recordShot` only touches the shots maps. -/
@[simp] theorem recordShot_enemyShipHits (s : EngineState) (side : Bool) (x y : Int) (sh : Shot) :
    (recordShot s side x y sh).enemyShipHits = s.enemyShipHits := by
  unfold recordShot
  cases side <;> simp

/-- `recordShot` only touches the shots maps. -/
@[simp] theorem recordShot_playerItems (s : EngineState) (side : Bool) (x y : Int) (sh : Shot) :
    (recordShot s side x y sh).playerItems = s.playerItems := by
  unfold recordShot
  cases side <;> simp

/-- `recordShot` only touches the shots maps. -/
@[simp] theorem recordShot_enemyItems (s : EngineState) (side : Bool) (x y : Int) (sh : Shot) :
    (recordShot s side x y sh).enemyItems = s.enemyItems := by
  unfold recordShot
  cases side <;> simp

/-- `recordShot` only touches the shots maps. -/
@[simp] theorem recordShot_playerItemHits (s : EngineState) (side : Bool) (x y : Int) (sh : Shot) :
    (recordShot s side x y sh).playerItemHits = s.playerItemHits := by
  unfold recordShot
  cases side <;> simp

/-- `recordShot` only touches the shots maps. -/
@[simp] theorem recordShot_enemyItemHits (s : EngineState) (side : Bool) (x y : Int) (sh : Shot) :
    (recordShot s side x y sh).enemyItemHits = s.enemyItemHits := by
  unfold recordShot
  cases side <;> simp

/-- `recordShot` only touches the shots maps. -/
@[simp] theorem recordShot_playerCollectedItems (s : EngineState) (side : Bool) (x y : Int) (sh : Shot) :
    (recordShot s side x y sh).playerCollectedItems = s.playerCollectedItems := by
  unfold recordShot
  cases side <;> simp

/-- `recordShot` only touches the shots maps. -/
@[simp] theorem recordShot_enemyCollectedItems (s : EngineState) (side : Bool) (x y : Int) (sh : Shot) :
    (recordShot s side x y sh).enemyCollectedItems = s.enemyCollectedItems := by
  unfold recordShot
  cases side <;> simp

/-- `bumpShipHits` only touches the ship hit counters. -/
@[simp] theorem bumpShipHits_currentTurn (s : EngineState) (side hit : Bool) (idInt : Int) :
    (bumpShipHits s side hit idInt).currentTurn = s.currentTurn := by
  unfold bumpShipHits
  split_ifs <;> simp

/-- `bumpShipHits` only touches the ship hit counters. -/
@[simp] theorem bumpShipHits_playerShips (s : EngineState) (side hit : Bool) (idInt : Int) :
    (bumpShipHits s side hit idInt).playerShips = s.playerShips := by
  unfold bumpShipHits
  split_ifs <;> simp

/-- `bumpShipHits` only touches the ship hit counters. -/
@[simp] theorem bumpShipHits_enemyShips (s : EngineState) (side hit : Bool) (idInt : Int) :
    (bumpShipHits s side hit idInt).enemyShips = s.enemyShips := by
  unfold bumpShipHits
  split_ifs <;> simp

/-- `bumpShipHits` only touches the ship hit counters. -/
@[simp] theorem bumpShipHits_isGameOver (s : EngineState) (side hit : Bool) (idInt : Int) :
    (bumpShipHits s side hit idInt).isGameOver = s.isGameOver := by
  unfold bumpShipHits
  split_ifs <;> simp

/-- `bumpShipHits` only touches the ship hit counters. -/
@[simp] theorem bumpShipHits_winner (s : EngineState) (side hit : Bool) (idInt : Int) :
    (bumpShipHits s side hit idInt).winner = s.winner := by
  unfold bumpShipHits
  split_ifs <;> simp

/-- `bumpShipHits` only touches the ship hit counters. -/
@[simp] theorem bumpShipHits_boardWidth (s : EngineState) (side hit : Bool) (idInt : Int) :
    (bumpShipHits s side hit idInt).boardWidth = s.boardWidth := by
  unfold bumpShipHits
  split_ifs <;> simp

/-- `bumpShipHits` only touches the ship hit counters. -/
@[simp] theorem bumpShipHits_boardHeight (s : EngineState) (side hit : Bool) (idInt : Int) :
    (bumpShipHits s side hit idInt).boardHeight = s.boardHeight := by
  unfold bumpShipHits
  split_ifs <;> simp

/-- `bumpShipHits` only touches the ship hit counters. -/
@[simp] theorem bumpShipHits_shotCount (s : EngineState) (side hit : Bool) (idInt : Int) :
    (bumpShipHits s side hit idInt).shotCount = s.shotCount := by
  unfold bumpShipHits
  split_ifs <;> simp

/-- `bumpShipHits` only touches the ship hit counters. -/
@[simp] theorem bumpShipHits_playerShotsMap (s : EngineState) (side hit : Bool) (idInt : Int) :
    (bumpShipHits s side hit idInt).playerShotsMap = s.playerShotsMap := by
  unfold bumpShipHits
  split_ifs <;> simp

/-- `bumpShipHits` only touches the ship hit counters. -/
@[simp] theorem bumpShipHits_enemyShotsMap (s : EngineState) (side hit : Bool) (idInt : Int) :
    (bumpShipHits s side hit idInt).enemyShotsMap = s.enemyShotsMap := by
  unfold bumpShipHits
  split_ifs <;> simp

/-- `bumpShipHits` only touches the ship hit counters. -/
@[simp] theorem bumpShipHits_playerItems (s : EngineState) (side hit : Bool) (idInt : Int) :
    (bumpShipHits s side hit idInt).playerItems = s.playerItems := by
  unfold bumpShipHits
  split_ifs <;> simp

/-- `bumpShipHits` only touches the ship hit counters. -/
@[simp] theorem bumpShipHits_enemyItems (s : EngineState) (side hit : Bool) (idInt : Int) :
    (bumpShipHits s side hit idInt).enemyItems = s.enemyItems := by
  unfold bumpShipHits
  split_ifs <;> simp

/-- `bumpShipHits` only touches the ship hit counters. -/
@[simp] theorem bumpShipHits_playerItemHits (s : EngineState) (side hit : Bool) (idInt : Int) :
    (bumpShipHits s side hit idInt).playerItemHits = s.playerItemHits := by
  unfold bumpShipHits
  split_ifs <;> simp

/-- `bumpShipHits` only touches the ship hit counters. -/
@[simp] theorem bumpShipHits_enemyItemHits (s : EngineState) (side hit : Bool) (idInt : Int) :
    (bumpShipHits s side hit idInt).enemyItemHits = s.enemyItemHits := by
  unfold bumpShipHits
  split_ifs <;> simp

/-- `bumpShipHits` only touches the ship hit counters. -/
@[simp] theorem bumpShipHits_playerCollectedItems (s : EngineState) (side hit : Bool) (idInt : Int) :
    (bumpShipHits s side hit idInt).playerCollectedItems = s.playerCollectedItems := by
  unfold bumpShipHits
  split_ifs <;> simp

/-- `bumpShipHits` only touches the ship hit counters. -/
@[simp] theorem bumpShipHits_enemyCollectedItems (s : EngineState) (side hit : Bool) (idInt : Int) :
    (bumpShipHits s side hit idInt).enemyCollectedItems = s.enemyCollectedItems := by
  unfold bumpShipHits
  split_ifs <;> simp

/-- `executeShot` on an already-shot cell: `CellAlreadyShot`, identical
state, no events. -/
theorem executeShot_cellAlreadyShot (s : EngineState) (x y : Int) (side supp : Bool)
    (info : Option PatternInfo) (h : isCellShot s x y side = true) :
    executeShot s x y side supp info =
      ({ success := false, error := some ShotErrorCellAlreadyShot, hit := false, shipId := -1 },
       s, []) := by
  unfold executeShot
  rw [if_pos h]

/-- `executeShot` never changes the turn flag, the ship/item placements,
the board dimensions, the game-over flag or the winner. -/
theorem executeShot_frame (s : EngineState) (x y : Int) (side supp : Bool)
    (info : Option PatternInfo) :
    ((executeShot s x y side supp info).2.1.currentTurn = s.currentTurn ∧
     (executeShot s x y side supp info).2.1.playerShips = s.playerShips ∧
     (executeShot s x y side supp info).2.1.enemyShips = s.enemyShips ∧
     (executeShot s x y side supp info).2.1.isGameOver = s.isGameOver ∧
     (executeShot s x y side supp info).2.1.winner = s.winner ∧
     (executeShot s x y side supp info).2.1.boardWidth = s.boardWidth ∧
     (executeShot s x y side supp info).2.1.boardHeight = s.boardHeight ∧
     (executeShot s x y side supp info).2.1.playerItems = s.playerItems ∧
     (executeShot s x y side supp info).2.1.enemyItems = s.enemyItems) := by
  simp only [executeShot]
  split_ifs <;> simp_all

/-- `recordShot` sets exactly the attacker map. -/
@[simp] theorem sideShotsMap_recordShot_same (s : EngineState) (side : Bool) (x y : Int) (sh : Shot) :
    sideShotsMap (recordShot s side x y sh) side = shotsMapSet (sideShotsMap s side) x y sh := by
  cases side <;> simp [sideShotsMap, recordShot]

/-- `recordShot` leaves the defender map alone. -/
@[simp] theorem sideShotsMap_recordShot_other (s : EngineState) (side : Bool) (x y : Int) (sh : Shot) :
    sideShotsMap (recordShot s side x y sh) (!side) = sideShotsMap s (!side) := by
  cases side <;> simp [sideShotsMap, recordShot]

/-- `bumpShipHits` leaves both shots maps alone. -/
@[simp] theorem sideShotsMap_bumpShipHits (s : EngineState) (side hit : Bool) (idInt : Int)
    (side2 : Bool) :
    sideShotsMap (bumpShipHits s side hit idInt) side2 = sideShotsMap s side2 := by
  cases side2 <;> simp [sideShotsMap]

/-- `collectItem` leaves both shots maps alone. -/
@[simp] theorem sideShotsMap_collectItem (s : EngineState) (x y : Int) (side side2 : Bool) :
    sideShotsMap (collectItem s x y side).2 side2 = sideShotsMap s side2 := by
  cases side2 <;> simp [sideShotsMap]

/-- `recordShot` leaves both hit-counter maps alone. -/
@[simp] theorem sideHitsMap_recordShot (s : EngineState) (side : Bool) (x y : Int) (sh : Shot)
    (side2 : Bool) :
    sideHitsMap (recordShot s side x y sh) side2 = sideHitsMap s side2 := by
  cases side2 <;> simp [sideHitsMap]

/-- `collectItem` leaves both hit-counter maps alone. -/
@[simp] theorem sideHitsMap_collectItem (s : EngineState) (x y : Int) (side side2 : Bool) :
    sideHitsMap (collectItem s x y side).2 side2 = sideHitsMap s side2 := by
  cases side2 <;> simp [sideHitsMap]

/-- `bumpShipHits` on the attacker counters. -/
theorem sideHitsMap_bumpShipHits_same (s : EngineState) (side hit : Bool) (idInt : Int) :
    sideHitsMap (bumpShipHits s side hit idInt) side =
      if hit ∧ 0 ≤ idInt then
        natMapSet (sideHitsMap s side) idInt.toNat (natMapGet (sideHitsMap s side) idInt.toNat + 1)
      else sideHitsMap s side := by
  cases side <;> simp [sideHitsMap, bumpShipHits] <;> split_ifs <;> simp_all

/-- `bumpShipHits` leaves the defender counters alone. -/
@[simp] theorem sideHitsMap_bumpShipHits_other (s : EngineState) (side hit : Bool) (idInt : Int) :
    sideHitsMap (bumpShipHits s side hit idInt) (!side) = sideHitsMap s (!side) := by
  cases side <;> simp [sideHitsMap, bumpShipHits] <;> split_ifs <;> simp_all

/-- `checkShot` through the derived position cache. -/
theorem checkShot_eq (s : EngineState) (x y : Int) (side : Bool) :
    checkShot s x y side =
      match shipIdAt (sideTargetShips s side) x y with
      | some shipId => (true, (shipId : Int))
      | none => (false, -1) := rfl

/-- Updating `shotCount` does not move the shots maps. -/
@[simp] theorem sideShotsMap_setShotCount (s : EngineState) (n : Nat) (b : Bool) :
    sideShotsMap { s with shotCount := n } b = sideShotsMap s b := by
  cases b <;> simp [sideShotsMap]

/-- Updating `shotCount` does not move the hit counters. -/
@[simp] theorem sideHitsMap_setShotCount (s : EngineState) (n : Nat) (b : Bool) :
    sideHitsMap { s with shotCount := n } b = sideHitsMap s b := by
  cases b <;> simp [sideHitsMap]

/-- On a fresh cell, `executeShot` extends the attacker shots map with one
record at the target whose stored hit flag is the hit-test result. -/
theorem executeShot_attackMap (s : EngineState) (x y : Int) (side supp : Bool)
    (info : Option PatternInfo) (h : isCellShot s x y side = false) :
    ∃ rec : Shot,
      sideShotsMap (executeShot s x y side supp info).2.1 side =
        shotsMapSet (sideShotsMap s side) x y rec ∧
      rec.hit = (checkShot s x y side).1 := by
  refine ⟨shotRecordOf x y (checkShot s x y side).1 (checkShot s x y side).2 info
    ((if !(checkShot s x y side).1 then collectItem s x y side else (none, s)).1), ?_, rfl⟩
  simp only [executeShot, h, Bool.false_eq_true, if_false]
  simp only [sideShotsMap_setShotCount, sideShotsMap_bumpShipHits, sideShotsMap_recordShot_same]
  rcases hhit : (checkShot s x y side).1 with _ | _ <;> simp [sideShotsMap_collectItem]

/-- `executeShot` never touches the shots map of the other side. -/
theorem executeShot_otherMap (s : EngineState) (x y : Int) (side supp : Bool)
    (info : Option PatternInfo) :
    sideShotsMap (executeShot s x y side supp info).2.1 (!side) = sideShotsMap s (!side) := by
  rcases hcell : isCellShot s x y side with _ | _
  · simp only [executeShot, hcell, Bool.false_eq_true, if_false]
    simp only [sideShotsMap_setShotCount, sideShotsMap_bumpShipHits,
      sideShotsMap_recordShot_other]
    rcases hhit : (checkShot s x y side).1 with _ | _ <;> simp [sideShotsMap_collectItem]
  · rw [executeShot_cellAlreadyShot s x y side supp info hcell]

/-- On a fresh cell, `executeShot` bumps exactly the hit counter of the
ship covering the cell (when there is one) in the attacked fleet. -/
theorem executeShot_hitsMap (s : EngineState) (x y : Int) (side supp : Bool)
    (info : Option PatternInfo) (h : isCellShot s x y side = false) (id : Nat) :
    natMapGet (sideHitsMap (executeShot s x y side supp info).2.1 side) id =
      natMapGet (sideHitsMap s side) id +
        (if shipIdAt (sideTargetShips s side) x y = some id then 1 else 0) := by
  rcases hsid : shipIdAt (sideTargetShips s side) x y with _ | id0
  · have hc : checkShot s x y side = (false, -1) := by rw [checkShot_eq, hsid]
    simp only [executeShot, h, Bool.false_eq_true, if_false, hc]
    simp only [sideHitsMap_setShotCount, sideHitsMap_bumpShipHits_same,
      sideHitsMap_recordShot, sideHitsMap_collectItem]
    simp [hsid]
  · have hc : checkShot s x y side = (true, (id0 : Int)) := by rw [checkShot_eq, hsid]
    simp only [executeShot, h, Bool.false_eq_true, if_false, hc]
    simp only [sideHitsMap_setShotCount, sideHitsMap_bumpShipHits_same,
      sideHitsMap_recordShot, sideHitsMap_collectItem]
    rw [if_pos (by exact ⟨by trivial, Int.natCast_nonneg id0⟩)]
    have htoNat : ((id0 : Int)).toNat = id0 := rfl
    rw [htoNat]
    by_cases hid : id0 = id
    · subst hid
      simp [natMapGet_set_self, hsid]
    · rw [natMapGet_set_ne _ _ _ _ (fun hh => hid hh.symm)]
      have hne : ¬(some id0 = some id) := fun hh => hid (Option.some.inj hh)
      simp [hne]

/-- `executeShot` never touches the hit counters of the other fleet. -/
theorem executeShot_otherHits (s : EngineState) (x y : Int) (side supp : Bool)
    (info : Option PatternInfo) :
    sideHitsMap (executeShot s x y side supp info).2.1 (!side) = sideHitsMap s (!side) := by
  rcases hcell : isCellShot s x y side with _ | _
  · simp only [executeShot, hcell, Bool.false_eq_true, if_false]
    simp only [sideHitsMap_setShotCount, sideHitsMap_bumpShipHits_other,
      sideHitsMap_recordShot]
    rcases hhit : (checkShot s x y side).1 with _ | _ <;> simp [sideHitsMap_collectItem]
  · rw [executeShot_cellAlreadyShot s x y side supp info hcell]

/-- A hit never attempts item collection: counters, collected sets and the
collection fields of the result are untouched. -/
theorem executeShot_items_hit (s : EngineState) (x y : Int) (side supp : Bool)
    (info : Option PatternInfo) (h : isCellShot s x y side = false)
    (hhit : (checkShot s x y side).1 = true) :
    ((executeShot s x y side supp info).2.1.playerItemHits = s.playerItemHits ∧
     (executeShot s x y side supp info).2.1.enemyItemHits = s.enemyItemHits ∧
     (executeShot s x y side supp info).2.1.playerCollectedItems = s.playerCollectedItems ∧
     (executeShot s x y side supp info).2.1.enemyCollectedItems = s.enemyCollectedItems ∧
     (executeShot s x y side supp info).1.collected = false ∧
     (executeShot s x y side supp info).1.itemId = none ∧
     (executeShot s x y side supp info).1.itemFullyCollected = false) := by
  simp only [executeShot, h, Bool.false_eq_true, if_false, hhit]
  simp

/-- A miss delegates to `collectItem`: the item state of the new engine
state and the collection fields of the result are exactly its output. -/
theorem executeShot_items_miss (s : EngineState) (x y : Int) (side supp : Bool)
    (info : Option PatternInfo) (h : isCellShot s x y side = false)
    (hmiss : (checkShot s x y side).1 = false) :
    ((executeShot s x y side supp info).2.1.playerItemHits = (collectItem s x y side).2.playerItemHits ∧
     (executeShot s x y side supp info).2.1.enemyItemHits = (collectItem s x y side).2.enemyItemHits ∧
     (executeShot s x y side supp info).2.1.playerCollectedItems = (collectItem s x y side).2.playerCollectedItems ∧
     (executeShot s x y side supp info).2.1.enemyCollectedItems = (collectItem s x y side).2.enemyCollectedItems ∧
     (executeShot s x y side supp info).1.collected = (collectItem s x y side).1.isSome ∧
     (executeShot s x y side supp info).1.itemId =
       Option.map ItemCollection.itemId (collectItem s x y side).1 ∧
     (executeShot s x y side supp info).1.itemFullyCollected =
       (Option.map ItemCollection.itemFullyCollected (collectItem s x y side).1).getD false) := by
  simp only [executeShot, h, Bool.false_eq_true, if_false, hmiss]
  simp

/-- On a fresh cell, `executeShot` succeeds and reports the hit test. -/
theorem executeShot_result (s : EngineState) (x y : Int) (side supp : Bool)
    (info : Option PatternInfo) (h : isCellShot s x y side = false) :
    ((executeShot s x y side supp info).1.success = true ∧
     (executeShot s x y side supp info).1.hit = (checkShot s x y side).1 ∧
     (executeShot s x y side supp info).1.shipId = (checkShot s x y side).2) := by
  simp only [executeShot, h, Bool.false_eq_true, if_false]
  simp

/-- With the callback suppressed, `executeShot` emits no shot event. -/
theorem executeShot_suppressed_events (s : EngineState) (x y : Int) (side : Bool)
    (info : Option PatternInfo) :
    ((executeShot s x y side true info).2.2).filter isShotFired = [] := by
  simp only [executeShot]
  split_ifs <;> simp_all [isShotFired]

/-- State predicates preserved by every `executeShot` call. -/
def ShotClosed (P : EngineState → Prop) : Prop :=
  ∀ (s : EngineState) (x y : Int) (side supp : Bool) (info : Option PatternInfo),
    P s → P ((executeShot s x y side supp info).2.1)

/-- A `ShotClosed` predicate survives the pattern loop. -/
theorem foldl_patternStep_closed (P : EngineState → Prop) (hP : ShotClosed P)
    (cx cy : Int) (pat : ShotPattern) (side : Bool) :
    ∀ (offs : List ShotOffset) (acc : List PatternShot × EngineState × List EngineEvent),
      P acc.2.1 → P ((offs.foldl (patternStep cx cy pat side) acc).2.1) := by
  intro offs
  induction offs with
  | nil => intro acc h; exact h
  | cons o rest ih =>
      intro acc h
      rw [List.foldl_cons]
      apply ih
      simp only [patternStep]
      split_ifs <;> simp only [] <;> first
        | exact h
        | exact hP acc.2.1 (cx + o.dx) (cy + o.dy) side true
            (some { patternId := pat.id, centerX := cx, centerY := cy }) h

/-- A `ShotClosed` predicate survives `executeShotPattern`. -/
theorem executeShotPattern_closed (P : EngineState → Prop) (hP : ShotClosed P)
    (s : EngineState) (cx cy : Int) (pat : ShotPattern) (side : Bool) (h : P s) :
    P ((executeShotPattern s cx cy pat side).2.1) := by
  unfold executeShotPattern
  split_ifs
  · exact h
  · exact foldl_patternStep_closed P hP cx cy pat side pat.offsets ([], s, []) h

/-- State predicates preserved by every engine mutator. -/
def EngClosed (P : EngineState → Prop) : Prop :=
  ShotClosed P ∧
  (∀ s : EngineState, P s → P (toggleTurn s).1) ∧
  (∀ (s : EngineState) (w : Winner), P s → P (setGameOver s w).1)

/-- An `EngClosed` predicate survives any sequence of engine operations. -/
theorem runOps_closed (P : EngineState → Prop) (hP : EngClosed P) :
    ∀ (ops : List EngOp) (s : EngineState), P s → P (runOps ops s) := by
  intro ops
  induction ops with
  | nil => intro s h; exact h
  | cons op rest ih =>
      intro s h
      rw [runOps, List.foldl_cons]
      show P (runOps rest (applyOp op s))
      apply ih
      cases op with
      | pattern cx cy p side => exact executeShotPattern_closed P hP.1 s cx cy p side h
      | toggle => exact hP.2.1 s h
      | setOver w => exact hP.2.2 s w h

/-- `isCellShot` through the side selector. -/
theorem isCellShot_eq (s : EngineState) (x y : Int) (side : Bool) :
    isCellShot s x y side = shotsMapHas (sideShotsMap s side) x y := rfl

/-- A recorded cell stays recorded across any further `executeShot`. -/
theorem executeShot_cellShot_mono (a b : Int) (side2 : Bool) :
    ShotClosed (fun s => isCellShot s a b side2 = true) := by
  intro s x y side supp info h
  by_cases hs : side2 = side
  · subst hs
    rcases hcell : isCellShot s x y side2 with _ | _
    · obtain ⟨rec, hmap, _⟩ := executeShot_attackMap s x y side2 supp info hcell
      rw [isCellShot_eq, hmap]
      exact shotsMapHas_set_mono _ x y rec a b (by rw [isCellShot_eq] at h; exact h)
    · rw [executeShot_cellAlreadyShot s x y side2 supp info hcell]
      exact h
  · have hflip : side2 = !side := by
      cases side <;> cases side2 <;> simp_all
    rw [isCellShot_eq, hflip, executeShot_otherMap]
    rw [isCellShot_eq, hflip] at h
    exact h

/-- `toggleTurn` and `setGameOver` do not touch the shot records. -/
theorem cellShot_engClosed (a b : Int) (side2 : Bool) :
    EngClosed (fun s => isCellShot s a b side2 = true) := by
  refine ⟨executeShot_cellShot_mono a b side2, ?_, ?_⟩
  · intro s h
    cases side2 <;> exact h
  · intro s w h
    cases side2 <;> exact h

/-- C4: `applyShot` (`GameEngine.executeShot`) on a cell already shot for
that side returns the `CellAlreadyShot` error and changes no state, and
shot records are append-only: once `isCellShot` is true it stays true
under every further engine operation (pattern attacks, turn toggles,
game-over assignment) until reset. -/
theorem C4_cellAlreadyShot_rejected_and_append_only :
    (∀ (s : EngineState) (x y : Int) (side supp : Bool) (info : Option PatternInfo),
        isCellShot s x y side = true →
        executeShot s x y side supp info =
          ({ success := false, error := some ShotErrorCellAlreadyShot, hit := false, shipId := -1 },
           s, [])) ∧
    (∀ (ops : List EngOp) (s : EngineState) (x y : Int) (side : Bool),
        isCellShot s x y side = true → isCellShot (runOps ops s) x y side = true) :=
  ⟨fun s x y side supp info h => executeShot_cellAlreadyShot s x y side supp info h,
   fun ops s x y side h =>
     runOps_closed (fun s => isCellShot s x y side = true) (cellShot_engClosed x y side) ops s h⟩

/-- Witness for C4 at a concrete board: shooting (3,3) twice on the empty
10×10 board errors out with an unchanged state, and the record survives a
later pattern attack and a turn toggle. -/
theorem C4_cellAlreadyShot_rejected_and_append_only_witness :
    (executeShot (executeShot demoEmpty 3 3 true false none).2.1 3 3 true false none =
      ({ success := false, error := some ShotErrorCellAlreadyShot, hit := false, shipId := -1 },
       (executeShot demoEmpty 3 3 true false none).2.1, [])) ∧
    isCellShot
      (runOps [EngOp.pattern 4 4 CROSS_SHOT true, EngOp.toggle]
        (executeShot demoEmpty 3 3 true false none).2.1) 3 3 true = true :=
  ⟨C4_cellAlreadyShot_rejected_and_append_only.1
      (executeShot demoEmpty 3 3 true false none).2.1 3 3 true false none (by decide),
   C4_cellAlreadyShot_rejected_and_append_only.2
      [EngOp.pattern 4 4 CROSS_SHOT true, EngOp.toggle]
      (executeShot demoEmpty 3 3 true false none).2.1 3 3 true (by decide)⟩

/-- C3 counterexample: `GameEngine.setGameOver` is not idempotent.  On a
state whose game-over flag is already set (winner: player), a second call
reassigns the winner to a different side and fires the game-over
notification again, so it is not a no-op. -/
theorem C3_setGameOver_not_idempotent_counterexample :
    demoOverState.isGameOver = true ∧
    demoOverState.winner = some Player.player ∧
    (setGameOver demoOverState (some Player.enemy)).1.winner = some Player.enemy ∧
    ¬((setGameOver demoOverState (some Player.enemy)).1 = demoOverState ∧
      (setGameOver demoOverState (some Player.enemy)).2 = []) ∧
    (setGameOver demoOverState (some Player.enemy)).2.filter isGameOverFired =
      [EngineEvent.gameOverFired (some Player.enemy)] := by
  refine ⟨rfl, rfl, rfl, ?_, rfl⟩
  rintro ⟨h1, -⟩
  have h2 := congrArg EngineState.winner h1
  simp [setGameOver, demoOverState] at h2

/-- C3 (amended): `setGameOver` itself overwrites unconditionally, but both
coordinators guard it — `Match.checkGameOver` returns untouched (no event)
once the snapshot reports game over, `resolveTurn` skips the game-over
branch once the flag is set, and `executeShotPattern` never assigns the
winner — so the winner is assigned at most once per match and the
game-over notification is not re-fired. -/
theorem C3_winner_assigned_at_most_once :
    (∀ m : MatchState, m.engine.isGameOver = true → matchCheckGameOver m = (m, [])) ∧
    (∀ c : MachineCtx, c.engine.isGameOver = true →
      (resolveTurn c).engine.winner = c.engine.winner ∧
      (resolveTurn c).engine.isGameOver = true) ∧
    (∀ (s : EngineState) (cx cy : Int) (pat : ShotPattern) (side : Bool),
      (executeShotPattern s cx cy pat side).2.1.winner = s.winner ∧
      (executeShotPattern s cx cy pat side).2.1.isGameOver = s.isGameOver) := by
  refine ⟨?_, ?_, ?_⟩
  · intro m h
    unfold matchCheckGameOver
    rw [if_pos (show (getState m.engine).isGameOver = true from h)]
  · intro c h
    unfold resolveTurn
    rcases hlar : c.lastAttackResult with _ | ar
    · exact ⟨by trivial, h⟩
    · simp only []
      by_cases htog : (c.ruleSet.decideTurn ar (getState c.engine)).shouldToggleTurn = true
      · simp only [htog, if_true]
        have hov : (getState (toggleTurn c.engine).1).isGameOver = true := h
        simp only [hov, Bool.not_true, Bool.false_eq_true, if_false]
        exact ⟨by trivial, h⟩
      · have htog2 : (c.ruleSet.decideTurn ar (getState c.engine)).shouldToggleTurn = false := by
          simpa using htog
        simp only [htog2, Bool.false_eq_true, if_false]
        have hov : (getState c.engine).isGameOver = true := h
        simp only [hov, Bool.not_true, Bool.false_eq_true, if_false]
        exact ⟨by trivial, h⟩
  · intro s cx cy pat side
    have hclosed : ShotClosed (fun t => t.winner = s.winner ∧ t.isGameOver = s.isGameOver) := by
      intro t x y sd supp info ht
      obtain ⟨-, -, -, hover, hwin, -⟩ := executeShot_frame t x y sd supp info
      exact ⟨hwin.trans ht.1, hover.trans ht.2⟩
    exact executeShotPattern_closed _ hclosed s cx cy pat side ⟨rfl, rfl⟩

/-- Witness for C3 (amended) at a finished board: the guarded
`Match.checkGameOver` and `resolveTurn` leave the stored player winner in
place, and a cross attack on the empty board assigns no winner. -/
theorem C3_winner_assigned_at_most_once_witness :
    matchCheckGameOver demoMatchOver = (demoMatchOver, []) ∧
    (resolveTurn demoCtxOver).engine.winner = demoCtxOver.engine.winner ∧
    (executeShotPattern demoEmpty 4 4 CROSS_SHOT true).2.1.winner = demoEmpty.winner :=
  ⟨C3_winner_assigned_at_most_once.1 demoMatchOver (by decide),
   (C3_winner_assigned_at_most_once.2.1 demoCtxOver (by decide)).1,
   (C3_winner_assigned_at_most_once.2.2 demoEmpty 4 4 CROSS_SHOT true).1⟩

/-- `Match.checkGameOver` never swaps the active ruleset. -/
@[simp] theorem matchCheckGameOver_ruleSet (m : MatchState) :
    (matchCheckGameOver m).1.ruleSet = m.ruleSet := by
  simp only [matchCheckGameOver]
  split_ifs <;> rfl

/-- `Match.phaseAttackPattern` never swaps the active ruleset. -/
@[simp] theorem phaseAttackPattern_ruleSet (m : MatchState) (cx cy : Int)
    (pat : ShotPattern) (side : Bool) :
    (phaseAttackPattern m cx cy pat side).2.1.ruleSet = m.ruleSet := by
  unfold phaseAttackPattern
  simp only [matchCheckGameOver_ruleSet]

/-- C8: `confirmAttack` with no pending plan — in particular right after
`cancelPlan` — returns the `NoAttackPlanned` error with an empty shot list
and leaves the whole coordinator (board state included) untouched, with no
events; `cancelPlan` always clears the plan; in Scenario E the previously
planned center (5,5) is still unshot afterwards. -/
theorem C8_confirmAttack_without_plan :
    (∀ m : MatchState, m.pendingPlan = none →
      confirmAttack m =
        ({ success := false, error := some AttackErrorNoAttackPlanned, shots := [],
           isGameOver := (getState m.engine).isGameOver, winner := m.engine.winner,
           turnEnded := false, canShootAgain := false, reason := "No attack planned",
           phase := MatchPhase.ATTACK }, m, [])) ∧
    (∀ m : MatchState, (cancelPlan m).pendingPlan = none) ∧
    ((planShot demoMatchE0 5 5 CROSS_SHOT true).1.ready = true ∧
     demoMatchE1.pendingPlan.isSome = true ∧
     (confirmAttack demoMatchE2).1.error = some AttackErrorNoAttackPlanned ∧
     (confirmAttack demoMatchE2).1.shots = [] ∧
     (confirmAttack demoMatchE2).2.1 = demoMatchE2 ∧
     isCellShot (confirmAttack demoMatchE2).2.1.engine 5 5 true = false) := by
  have hmain : ∀ m : MatchState, m.pendingPlan = none →
      confirmAttack m =
        ({ success := false, error := some AttackErrorNoAttackPlanned, shots := [],
           isGameOver := (getState m.engine).isGameOver, winner := m.engine.winner,
           turnEnded := false, canShootAgain := false, reason := "No attack planned",
           phase := MatchPhase.ATTACK }, m, []) := by
    intro m h
    unfold confirmAttack
    simp only [h]
  have hE : confirmAttack demoMatchE2 =
      ({ success := false, error := some AttackErrorNoAttackPlanned, shots := [],
         isGameOver := (getState demoMatchE2.engine).isGameOver,
         winner := demoMatchE2.engine.winner,
         turnEnded := false, canShootAgain := false, reason := "No attack planned",
         phase := MatchPhase.ATTACK }, demoMatchE2, []) := hmain demoMatchE2 rfl
  refine ⟨hmain, fun m => rfl, by decide, by decide, ?_, ?_, ?_, ?_⟩
  · rw [hE]
  · rw [hE]
  · rw [hE]
  · rw [hE]
    decide

/-- Witness for C8: the no-plan branch evaluated on the concrete Scenario E
coordinator. -/
theorem C8_confirmAttack_without_plan_witness :
    confirmAttack demoMatchE2 =
      ({ success := false, error := some AttackErrorNoAttackPlanned, shots := [],
         isGameOver := (getState demoMatchE2.engine).isGameOver,
         winner := demoMatchE2.engine.winner,
         turnEnded := false, canShootAgain := false, reason := "No attack planned",
         phase := MatchPhase.ATTACK }, demoMatchE2, []) :=
  C8_confirmAttack_without_plan.1 demoMatchE2 rfl

/-- C1: both shipped rulesets short-circuit `decideTurn` to
`{endTurn, no toggle, no act-again, "Game over"}` once the snapshot
reports game over, and consequently a confirmed attack whose executed
shots finish the match (the post-attack game-over check fires) comes back
from `confirmAttack` with `canShootAgain = false`, `isGameOver = true` and
reason `"Game over"`, overriding any act-again outcome. -/
theorem C1_gameOver_priority :
    rsGameOverPriority ClassicRuleSet ∧
    rsGameOverPriority AlternatingTurnsRuleSet ∧
    (∀ (m : MatchState) (plan : PendingPlan),
      m.pendingPlan = some plan →
      rsGameOverPriority m.ruleSet →
      (phaseAttackPattern m plan.centerX plan.centerY plan.pattern plan.isPlayerShot).1.success = true →
      (phaseAttackPattern m plan.centerX plan.centerY plan.pattern plan.isPlayerShot).2.1.engine.isGameOver = true →
      ((confirmAttack m).1.canShootAgain = false ∧
       (confirmAttack m).1.isGameOver = true ∧
       (confirmAttack m).1.turnEnded = true ∧
       (confirmAttack m).1.reason = "Game over")) := by
  refine ⟨?_, ?_, ?_⟩
  · intro ar st h
    simp only [ClassicRuleSet, gameOverTurnDecision]
    rw [if_pos h]
  · intro ar st h
    simp only [AlternatingTurnsRuleSet, gameOverTurnDecision]
    rw [if_pos h]
  · intro m plan hp hrs hsucc hover
    have hrs2 : rsGameOverPriority
        (phaseAttackPattern m plan.centerX plan.centerY plan.pattern plan.isPlayerShot).2.1.ruleSet := by
      rw [phaseAttackPattern_ruleSet]
      exact hrs
    unfold confirmAttack
    simp only [hp]
    simp only [hsucc, Bool.not_true, Bool.false_eq_true, if_false]
    unfold phaseTurnPattern
    simp only []
    rw [hrs2 _ _ (show _ = true from hover)]
    simp only [gameOverTurnDecision, Bool.false_eq_true, if_false]
    exact ⟨by trivial, hover, by trivial, by trivial⟩

/-- Witness for C1 on a concrete finishing shot: a single shot at the last
cell of the only remaining enemy ship. -/
theorem C1_gameOver_priority_witness :
    (confirmAttack demoMatchT).1.canShootAgain = false ∧
    (confirmAttack demoMatchT).1.isGameOver = true ∧
    (confirmAttack demoMatchT).1.turnEnded = true ∧
    (confirmAttack demoMatchT).1.reason = "Game over" :=
  C1_gameOver_priority.2.2 demoMatchT
    { centerX := 5, centerY := 5, pattern := SINGLE_SHOT, isPlayerShot := true }
    rfl C1_gameOver_priority.1 (by decide) (by decide)

/-- Filtering to the executed subset does not change an executed-guarded
aggregate. -/
theorem filter_executed_any (l : List PatternShot) (f : PatternShot → Bool) :
    (l.filter (fun sh => sh.executed)).any (fun sh => f sh && sh.executed) =
      l.any (fun sh => f sh && sh.executed) := by
  induction l with
  | nil => rfl
  | cons sh rest ih =>
      by_cases hx : sh.executed = true <;>
        simp [List.filter_cons, List.any_cons, hx, ih]

/-- `ClassicRuleSet.decideTurn` only looks at the executed shots. -/
theorem classic_decideTurn_filter_executed (ar : ShotPatternResult) (st : GameEngineView) :
    ClassicRuleSet.decideTurn ar st = ClassicRuleSet.decideTurn (executedSubset ar) st := by
  simp only [ClassicRuleSet, executedSubset]
  rw [filter_executed_any ar.shots (fun sh => sh.hit),
      filter_executed_any ar.shots (fun sh => sh.shipDestroyed)]

/-- `AlternatingTurnsRuleSet.decideTurn` only looks at the executed shots. -/
theorem alternating_decideTurn_filter_executed (ar : ShotPatternResult) (st : GameEngineView) :
    AlternatingTurnsRuleSet.decideTurn ar st =
      AlternatingTurnsRuleSet.decideTurn (executedSubset ar) st := by
  simp only [AlternatingTurnsRuleSet, executedSubset]
  rw [filter_executed_any ar.shots (fun sh => sh.hit)]

/-- Counterexample to C2 as stated: the aggregates fed to the RuleSet are
NOT always restricted to the executed subset.  After the single-cell ship
at (5,5) is shot and destroyed, a cross at (5,5) yields a pattern result
with no executed hit at all — its only hit is the stored one surfaced by
the not-executed centre entry — yet `Match.phaseTurnPattern` builds its
synthetic result with `hit = true` (and the first-hit ship id), while the
executed-subset aggregate is false. -/
theorem C2_unfiltered_aggregate_counterexample :
    ((executeShotPattern (executeShot demoBoardT 5 5 true false none).2.1
        5 5 CROSS_SHOT true).1.shots.all (fun sh => !(sh.hit && sh.executed))) = true ∧
    (syntheticPatternShotResult (executeShotPattern (executeShot demoBoardT 5 5 true false
        none).2.1 5 5 CROSS_SHOT true).1).hit = true ∧
    (syntheticPatternShotResult (executeShotPattern (executeShot demoBoardT 5 5 true false
        none).2.1 5 5 CROSS_SHOT true).1).shipId = 0 ∧
    (syntheticPatternShotResult (executedSubset (executeShotPattern (executeShot demoBoardT
        5 5 true false none).2.1 5 5 CROSS_SHOT true).1)).hit = false :=
  ⟨by decide, by decide, by decide, by decide⟩

/-- C2 (amended): the aggregation discipline depends on the path.  The two
shipped rulesets compute their own `anyHit` / `anyShipDestroyed` with a
`shot.hit && shot.executed` guard, so their decisions — and the machine
turn resolution (`resolveTurn`) built on them — are invariant under
dropping not-executed shots; but `Match.phaseTurnPattern` aggregates its
synthetic result over ALL recorded shots with no `executed` filter, so on
that path any recorded hit or destroyed flag, executed or not, drives the
aggregate handed to the ruleset. -/
theorem C2_aggregation_by_path :
    (∀ (ar : ShotPatternResult) (st : GameEngineView),
      ClassicRuleSet.decideTurn ar st = ClassicRuleSet.decideTurn (executedSubset ar) st) ∧
    (∀ (ar : ShotPatternResult) (st : GameEngineView),
      AlternatingTurnsRuleSet.decideTurn ar st =
        AlternatingTurnsRuleSet.decideTurn (executedSubset ar) st) ∧
    (∀ (c : MachineCtx) (ar : ShotPatternResult),
      c.lastAttackResult = some ar →
      c.ruleSet = ClassicRuleSet →
      (resolveTurn c).engine =
        (resolveTurn { c with lastAttackResult := some (executedSubset ar) }).engine ∧
      (resolveTurn c).lastTurnDecision =
        (resolveTurn { c with lastAttackResult := some (executedSubset ar) }).lastTurnDecision) ∧
    (∀ (ar : ShotPatternResult) (sh : PatternShot), sh ∈ ar.shots → sh.hit = true →
      (syntheticPatternShotResult ar).hit = true) ∧
    (∀ (ar : ShotPatternResult) (sh : PatternShot), sh ∈ ar.shots → sh.shipDestroyed = true →
      (syntheticPatternShotResult ar).shipDestroyed = true) := by
  refine ⟨classic_decideTurn_filter_executed, alternating_decideTurn_filter_executed, ?_, ?_, ?_⟩
  · intro c ar h1 hrs
    unfold resolveTurn
    simp only [h1, hrs]
    rw [← classic_decideTurn_filter_executed ar (getState c.engine)]
    exact ⟨rfl, rfl⟩
  · intro ar sh hmem hhit
    simp only [syntheticPatternShotResult]
    exact List.any_eq_true.mpr ⟨sh, hmem, hhit⟩
  · intro ar sh hmem hdes
    simp only [syntheticPatternShotResult]
    exact List.any_eq_true.mpr ⟨sh, hmem, hdes⟩

/-- Witness for C2 (amended): the ruleset decision on the cross attack at
the already-shot ship cell equals the one on its executed subset, while
the part_009 synthetic aggregate raises its hit flag from the concrete
not-executed surfaced hit alone. -/
theorem C2_aggregation_by_path_witness :
    ClassicRuleSet.decideTurn (executeShotPattern (executeShot demoBoardA 5 5 true false none).2.1
        5 5 CROSS_SHOT true).1 (getState (executeShot demoBoardA 5 5 true false none).2.1) =
      ClassicRuleSet.decideTurn
        (executedSubset (executeShotPattern (executeShot demoBoardA 5 5 true false none).2.1
            5 5 CROSS_SHOT true).1)
        (getState (executeShot demoBoardA 5 5 true false none).2.1) ∧
    (syntheticPatternShotResult (executeShotPattern (executeShot demoBoardT 5 5 true false
        none).2.1 5 5 CROSS_SHOT true).1).hit = true :=
  ⟨C2_aggregation_by_path.1
     (executeShotPattern (executeShot demoBoardA 5 5 true false none).2.1 5 5 CROSS_SHOT true).1
     (getState (executeShot demoBoardA 5 5 true false none).2.1),
   C2_aggregation_by_path.2.2.2.1
     (executeShotPattern (executeShot demoBoardT 5 5 true false none).2.1 5 5 CROSS_SHOT true).1
     { x := 5, y := 5, hit := true, shipId := some 0, executed := false }
     (by decide) (by decide)⟩

/-- C9: under the Classic (continue-on-hit) ruleset with the game not yet
over, a miss or a destroyed ship ends the turn and toggles the side with
no act-again, while a hit without destruction keeps the same side acting;
the two-shot Scenario A sequence against a 2×1 ship at (5,5) behaves
exactly that way through the match machine. -/
theorem C9_continue_on_hit_policy :
    (∀ (ar : ShotPatternResult) (st : GameEngineView), st.isGameOver = false →
      ClassicRuleSet.decideTurn ar st =
        (if ar.shots.any (fun sh => sh.hit && sh.executed) then
          (if ar.shots.any (fun sh => sh.shipDestroyed && sh.executed) then
            { shouldEndTurn := true, shouldToggleTurn := true, canShootAgain := false,
              reason := "Ship destroyed - turn ends" }
          else
            { shouldEndTurn := false, shouldToggleTurn := false, canShootAgain := true,
              reason := "Hit - shoot again" })
        else
          { shouldEndTurn := true, shouldToggleTurn := true, canShootAgain := false,
            reason := "Miss - turn ends" })) ∧
    (demoCtxA1.lastTurnDecision =
        some { shouldEndTurn := false, shouldToggleTurn := false, canShootAgain := true,
               reason := "Hit - shoot again" } ∧
     demoCtxA1.engine.currentTurn = GameTurn.PLAYER_TURN ∧
     demoCtxA1.engine.isGameOver = false ∧
     demoCtxA2.lastTurnDecision =
        some { shouldEndTurn := true, shouldToggleTurn := true, canShootAgain := false,
               reason := "Ship destroyed - turn ends" } ∧
     demoCtxA2.engine.currentTurn = GameTurn.ENEMY_TURN) := by
  constructor
  · intro ar st h
    simp only [ClassicRuleSet]
    rw [if_neg (by simp [h])]
  · exact ⟨by decide, by decide, by decide, by decide, by decide⟩

/-- Witness for C9: the decision on the concrete first Scenario A shot. -/
theorem C9_continue_on_hit_policy_witness :
    ClassicRuleSet.decideTurn (executeShotPattern demoBoardA 5 5 SINGLE_SHOT true).1
        (getState (executeShotPattern demoBoardA 5 5 SINGLE_SHOT true).2.1) =
      { shouldEndTurn := false, shouldToggleTurn := false, canShootAgain := true,
        reason := "Hit - shoot again" } := by
  rw [C9_continue_on_hit_policy.1
    (executeShotPattern demoBoardA 5 5 SINGLE_SHOT true).1
    (getState (executeShotPattern demoBoardA 5 5 SINGLE_SHOT true).2.1) (by decide)]
  decide

/-- The pattern loop emits no shot event (each inner shot suppresses its
callback). -/
theorem foldl_patternStep_no_shot_events (cx cy : Int) (pat : ShotPattern) (side : Bool) :
    ∀ (offs : List ShotOffset) (acc : List PatternShot × EngineState × List EngineEvent),
      (((offs.foldl (patternStep cx cy pat side) acc).2.2).filter isShotFired) =
        ((acc.2.2).filter isShotFired) := by
  intro offs
  induction offs with
  | nil => intro acc; rfl
  | cons o rest ih =>
      intro acc
      rw [List.foldl_cons, ih]
      simp only [patternStep]
      split_ifs <;>
        simp [List.filter_append, executeShot_suppressed_events]

/-- C10: every successful `executeShotPattern` call delivers exactly one
`onShot` notification — the synthetic center shot whose hit flag is true
iff some executed shot hit and whose ship id is that of the first executed
hit; the per-cell shots suppress their own callbacks. -/
theorem C10_single_onShot_per_pattern (s : EngineState) (cx cy : Int)
    (pat : ShotPattern) (side : Bool) (h : s.isGameOver = false) :
    ((executeShotPattern s cx cy pat side).2.2).filter isShotFired =
      [EngineEvent.shotFired
        { x := cx, y := cy,
          hit := (executeShotPattern s cx cy pat side).1.shots.any (fun e => e.hit && e.executed),
          shipId := ((executeShotPattern s cx cy pat side).1.shots.find?
            (fun e => e.hit && e.executed)).bind PatternShot.shipId,
          patternId := pat.id, patternCenterX := cx, patternCenterY := cy } side] := by
  unfold executeShotPattern
  simp only [h, Bool.false_eq_true, if_false]
  rw [List.filter_append, foldl_patternStep_no_shot_events]
  simp [isShotFired]

/-- Witness for C10: the corner cross attack on the empty board emits one
shot event. -/
theorem C10_single_onShot_per_pattern_witness :
    ((executeShotPattern demoEmpty 0 0 CROSS_SHOT true).2.2).filter isShotFired =
      [EngineEvent.shotFired
        { x := 0, y := 0,
          hit := (executeShotPattern demoEmpty 0 0 CROSS_SHOT true).1.shots.any
            (fun e => e.hit && e.executed),
          shipId := ((executeShotPattern demoEmpty 0 0 CROSS_SHOT true).1.shots.find?
            (fun e => e.hit && e.executed)).bind PatternShot.shipId,
          patternId := CROSS_SHOT.id, patternCenterX := 0, patternCenterY := 0 } true] :=
  C10_single_onShot_per_pattern demoEmpty 0 0 CROSS_SHOT true (by decide)

/-- `getShotAtPosition` through the side selector. -/
theorem getShotAtPosition_eq (s : EngineState) (x y : Int) (side : Bool) :
    getShotAtPosition s x y side = shotsMapGet (sideShotsMap s side) x y := rfl

/-- Board dimensions survive every `executeShot`. -/
theorem dims_shotClosed (W H : Int) :
    ShotClosed (fun t => t.boardWidth = W ∧ t.boardHeight = H) := by
  intro s x y side supp info h
  obtain ⟨-, -, -, -, -, hW, hH, -, -⟩ := executeShot_frame s x y side supp info
  exact ⟨hW.trans h.1, hH.trans h.2⟩

/-- `isValidPosition` only depends on the dimensions. -/
theorem isValidPosition_congr (s t : EngineState) (a b : Int)
    (hW : t.boardWidth = s.boardWidth) (hH : t.boardHeight = s.boardHeight) :
    isValidPosition t a b = isValidPosition s a b := by
  unfold isValidPosition
  rw [hW, hH]

/-- A stored shot record survives every further `executeShot` with its
value (keys are never overwritten: a present cell is rejected). -/
theorem executeShot_get_preserved (a b : Int) (side2 : Bool) (st : Shot) :
    ShotClosed (fun t => shotsMapGet (sideShotsMap t side2) a b = some st) := by
  intro s x y side supp info h
  by_cases hside : side2 = side
  · subst hside
    rcases hcell : isCellShot s x y side2 with _ | _
    · obtain ⟨rec, hmap, -⟩ := executeShot_attackMap s x y side2 supp info hcell
      rw [hmap]
      rw [shotsMapGet_set_preserved _ x y rec a b (by rw [h]; rfl)
        (by rw [isCellShot_eq] at hcell; exact hcell)]
      exact h
    · rw [executeShot_cellAlreadyShot s x y side2 supp info hcell]
      exact h
  · have hflip : side2 = !side := by cases side <;> cases side2 <;> simp_all
    rw [hflip, executeShot_otherMap]
    rw [hflip] at h
    exact h

/-- `executeShot` at one cell never changes the stored record of another
cell. -/
theorem executeShot_get_ne (s : EngineState) (x y : Int) (side supp : Bool)
    (info : Option PatternInfo) (a b : Int) (side2 : Bool) (hne : ¬(a = x ∧ b = y)) :
    shotsMapGet (sideShotsMap (executeShot s x y side supp info).2.1 side2) a b =
      shotsMapGet (sideShotsMap s side2) a b := by
  by_cases hside : side2 = side
  · subst hside
    rcases hcell : isCellShot s x y side2 with _ | _
    · obtain ⟨rec, hmap, -⟩ := executeShot_attackMap s x y side2 supp info hcell
      rw [hmap, shotsMapGet_set_ne _ x y rec a b hne]
    · rw [executeShot_cellAlreadyShot s x y side2 supp info hcell]
  · have hflip : side2 = !side := by cases side <;> cases side2 <;> simp_all
    rw [hflip, executeShot_otherMap]

/-- Shape of the pattern loop output: one recorded entry per offset, in
order, at the offset target coordinates. -/
theorem foldl_patternStep_shape (cx cy : Int) (pat : ShotPattern) (side : Bool) :
    ∀ (offs : List ShotOffset) (acc : List PatternShot × EngineState × List EngineEvent),
      ∃ rest, (offs.foldl (patternStep cx cy pat side) acc).1 = acc.1 ++ rest ∧
        List.Forall₂ (fun (o : ShotOffset) (e : PatternShot) =>
          e.x = cx + o.dx ∧ e.y = cy + o.dy) offs rest := by
  intro offs
  induction offs with
  | nil => intro acc; exact ⟨[], by simp, List.Forall₂.nil⟩
  | cons o rest ih =>
      intro acc
      rw [List.foldl_cons]
      obtain ⟨tail, htail, hfa⟩ := ih (patternStep cx cy pat side acc o)
      have hstep : ∃ e0 : PatternShot,
          (patternStep cx cy pat side acc o).1 = acc.1 ++ [e0] ∧
          e0.x = cx + o.dx ∧ e0.y = cy + o.dy := by
        simp only [patternStep]
        split_ifs <;> exact ⟨_, rfl, rfl, rfl⟩
      obtain ⟨e0, he0, hex, hey⟩ := hstep
      refine ⟨e0 :: tail, ?_, List.Forall₂.cons ⟨hex, hey⟩ hfa⟩
      rw [htail, he0]
      simp

/-- Per-entry guarantees of the pattern loop: an out-of-bounds entry is
not-executed with a false hit flag, and a not-executed in-bounds entry
surfaces the hit value stored on the board at the end of the loop. -/
theorem foldl_patternStep_entries (s0 : EngineState) (cx cy : Int) (pat : ShotPattern)
    (side : Bool) :
    ∀ (offs : List ShotOffset) (acc : List PatternShot × EngineState × List EngineEvent),
      acc.2.1.boardWidth = s0.boardWidth →
      acc.2.1.boardHeight = s0.boardHeight →
      (∀ e ∈ acc.1,
        (isValidPosition s0 e.x e.y = false → e.executed = false ∧ e.hit = false) ∧
        (e.executed = false → isValidPosition s0 e.x e.y = true →
          ∃ st, shotsMapGet (sideShotsMap acc.2.1 side) e.x e.y = some st ∧ e.hit = st.hit)) →
      (∀ e ∈ (offs.foldl (patternStep cx cy pat side) acc).1,
        (isValidPosition s0 e.x e.y = false → e.executed = false ∧ e.hit = false) ∧
        (e.executed = false → isValidPosition s0 e.x e.y = true →
          ∃ st, shotsMapGet (sideShotsMap (offs.foldl (patternStep cx cy pat side) acc).2.1 side)
            e.x e.y = some st ∧ e.hit = st.hit)) := by
  intro offs
  induction offs with
  | nil => intro acc _ _ hacc; exact hacc
  | cons o rest ih =>
      intro acc hW hH hacc
      rw [List.foldl_cons]
      have hdims : (patternStep cx cy pat side acc o).2.1.boardWidth = s0.boardWidth ∧
          (patternStep cx cy pat side acc o).2.1.boardHeight = s0.boardHeight := by
        have := foldl_patternStep_closed
          (fun t => t.boardWidth = s0.boardWidth ∧ t.boardHeight = s0.boardHeight)
          (dims_shotClosed s0.boardWidth s0.boardHeight) cx cy pat side [o] acc ⟨hW, hH⟩
        simpa using this
      apply ih (patternStep cx cy pat side acc o) hdims.1 hdims.2
      rcases hval : isValidPosition acc.2.1 (cx + o.dx) (cy + o.dy) with _ | _
      · -- out of bounds: recorded not-executed, state untouched
        simp only [patternStep, hval, Bool.not_false, if_true]
        intro e he
        rcases List.mem_append.mp he with hold | hnew
        · exact hacc e hold
        · rcases List.mem_singleton.mp hnew with rfl
          refine ⟨fun _ => ⟨rfl, rfl⟩, ?_⟩
          intro _ hval0
          rw [← isValidPosition_congr s0 acc.2.1 _ _ hW hH] at hval0
          rw [hval] at hval0
          exact absurd hval0 (by simp)
      · rcases hcell : isCellShot acc.2.1 (cx + o.dx) (cy + o.dy) side with _ | _
        · -- fresh cell: executed, state advanced by executeShot
          simp only [patternStep, hval, Bool.not_true, Bool.false_eq_true, if_false, hcell]
          intro e he
          rcases List.mem_append.mp he with hold | hnew
          · obtain ⟨h1, h2⟩ := hacc e hold
            refine ⟨h1, ?_⟩
            intro hexec hval0
            obtain ⟨st, hst, hhit⟩ := h2 hexec hval0
            exact ⟨st, executeShot_get_preserved e.x e.y side st acc.2.1 _ _ side true _ hst, hhit⟩
          · rcases List.mem_singleton.mp hnew with rfl
            refine ⟨?_, ?_⟩
            · intro hval0
              rw [← isValidPosition_congr s0 acc.2.1 _ _ hW hH] at hval0
              rw [hval] at hval0
              exact absurd hval0 (by simp)
            · intro hexec _
              exact absurd hexec (by simp)
        · -- already shot: recorded not-executed, surfaces the stored hit
          simp only [patternStep, hval, Bool.not_true, Bool.false_eq_true, if_false, hcell,
            if_true]
          intro e he
          rcases List.mem_append.mp he with hold | hnew
          · exact hacc e hold
          · rcases List.mem_singleton.mp hnew with rfl
            refine ⟨?_, ?_⟩
            · intro hval0
              rw [← isValidPosition_congr s0 acc.2.1 _ _ hW hH] at hval0
              rw [hval] at hval0
              exact absurd hval0 (by simp)
            · intro _ _
              have hsome : (shotsMapGet (sideShotsMap acc.2.1 side) (cx + o.dx) (cy + o.dy)).isSome := by
                rw [isCellShot_eq, shotsMapHas] at hcell
                exact hcell
              obtain ⟨st, hst⟩ := Option.isSome_iff_exists.mp hsome
              refine ⟨st, hst, ?_⟩
              rw [getShotAtPosition_eq, hst]
              rfl

/-- Indexing an append at the length of its left part picks the appended
element. -/
theorem get_append_middle {α : Type} (l1 : List α) (a : α) (l2 : List α) :
    (l1 ++ [a] ++ l2).get? l1.length = some a := by
  rw [List.append_assoc, List.get?_append_right (Nat.le_refl _), Nat.sub_self]
  rfl

/-- The pattern loop body appends exactly one entry, whose `executed` flag
is decided by the two tests of the loop: on the board, and not already
shot for that side. -/
theorem patternStep_executed (cx cy : Int) (pat : ShotPattern) (side : Bool)
    (acc : List PatternShot × EngineState × List EngineEvent) (o : ShotOffset) :
    ∃ e0 : PatternShot,
      (patternStep cx cy pat side acc o).1 = acc.1 ++ [e0] ∧
      e0.executed = (isValidPosition acc.2.1 (cx + o.dx) (cy + o.dy) &&
        !isCellShot acc.2.1 (cx + o.dx) (cy + o.dy) side) := by
  rcases hval : isValidPosition acc.2.1 (cx + o.dx) (cy + o.dy) with _ | _
  · simp only [patternStep, hval, Bool.not_false, if_true]
    exact ⟨_, rfl, rfl⟩
  · rcases hcell : isCellShot acc.2.1 (cx + o.dx) (cy + o.dy) side with _ | _
    · simp only [patternStep, hval, Bool.not_true, Bool.false_eq_true, if_false, hcell]
      exact ⟨_, rfl, rfl⟩
    · simp only [patternStep, hval, Bool.not_true, Bool.false_eq_true, if_false, hcell, if_true]
      exact ⟨_, rfl, rfl⟩

/-- Per-offset executed classification of the pattern loop: the i-th entry
is executed exactly when its target is on the board and not already shot
at the moment the loop reaches it — that is, in the state left by the
first i offsets. -/
theorem foldl_patternStep_executed (s0 : EngineState) (cx cy : Int) (pat : ShotPattern)
    (side : Bool) :
    ∀ (offs : List ShotOffset) (acc : List PatternShot × EngineState × List EngineEvent),
      acc.2.1.boardWidth = s0.boardWidth →
      acc.2.1.boardHeight = s0.boardHeight →
      ∀ (i : Nat) (o : ShotOffset) (e : PatternShot),
        offs.get? i = some o →
        ((offs.foldl (patternStep cx cy pat side) acc).1).get? (acc.1.length + i) = some e →
        e.executed = (isValidPosition s0 (cx + o.dx) (cy + o.dy) &&
          !isCellShot ((offs.take i).foldl (patternStep cx cy pat side) acc).2.1
            (cx + o.dx) (cy + o.dy) side) := by
  intro offs
  induction offs with
  | nil =>
      intro acc _ _ i o e hgo _
      cases i <;> simp at hgo
  | cons o0 rest ih =>
      intro acc hW hH i o e hgo hge
      rw [List.foldl_cons] at hge
      have hdims : (patternStep cx cy pat side acc o0).2.1.boardWidth = s0.boardWidth ∧
          (patternStep cx cy pat side acc o0).2.1.boardHeight = s0.boardHeight := by
        have := foldl_patternStep_closed
          (fun t => t.boardWidth = s0.boardWidth ∧ t.boardHeight = s0.boardHeight)
          (dims_shotClosed s0.boardWidth s0.boardHeight) cx cy pat side [o0] acc ⟨hW, hH⟩
        simpa using this
      cases i with
      | zero =>
          have ho : o0 = o := by simpa using hgo
          subst ho
          obtain ⟨e0, hstep, hex⟩ := patternStep_executed cx cy pat side acc o0
          obtain ⟨rest2, hrest2, -⟩ :=
            foldl_patternStep_shape cx cy pat side rest (patternStep cx cy pat side acc o0)
          rw [hrest2, hstep, Nat.add_zero, get_append_middle] at hge
          have he : e = e0 := (Option.some.inj hge).symm
          subst he
          rw [List.take_zero, List.foldl_nil,
            ← isValidPosition_congr s0 acc.2.1 (cx + o0.dx) (cy + o0.dy) hW hH]
          exact hex
      | succ j =>
          have hgo2 : rest.get? j = some o := by simpa using hgo
          have hlen : (patternStep cx cy pat side acc o0).1.length = acc.1.length + 1 := by
            obtain ⟨e0, hstep, -⟩ := patternStep_executed cx cy pat side acc o0
            rw [hstep]
            simp
          have hge2 : ((rest.foldl (patternStep cx cy pat side)
              (patternStep cx cy pat side acc o0)).1).get?
                ((patternStep cx cy pat side acc o0).1.length + j) = some e := by
            rw [hlen, show acc.1.length + 1 + j = acc.1.length + (j + 1) from by omega]
            exact hge
          have hmain := ih (patternStep cx cy pat side acc o0) hdims.1 hdims.2 j o e hgo2 hge2
          rw [List.take_succ_cons, List.foldl_cons]
          exact hmain

/-- The pattern loop never touches a cell that is out of the board: an
invalid coordinate keeps whatever record (none) it had. -/
theorem foldl_patternStep_invalid_untouched (s0 : EngineState) (cx cy : Int)
    (pat : ShotPattern) (side : Bool) :
    ∀ (offs : List ShotOffset) (acc : List PatternShot × EngineState × List EngineEvent),
      acc.2.1.boardWidth = s0.boardWidth →
      acc.2.1.boardHeight = s0.boardHeight →
      ∀ (a b : Int) (side2 : Bool), isValidPosition s0 a b = false →
        shotsMapGet (sideShotsMap (offs.foldl (patternStep cx cy pat side) acc).2.1 side2) a b =
          shotsMapGet (sideShotsMap acc.2.1 side2) a b := by
  intro offs
  induction offs with
  | nil => intro acc _ _ a b side2 _; rfl
  | cons o rest ih =>
      intro acc hW hH a b side2 hinvalid
      rw [List.foldl_cons]
      have hdims : (patternStep cx cy pat side acc o).2.1.boardWidth = s0.boardWidth ∧
          (patternStep cx cy pat side acc o).2.1.boardHeight = s0.boardHeight := by
        have := foldl_patternStep_closed
          (fun t => t.boardWidth = s0.boardWidth ∧ t.boardHeight = s0.boardHeight)
          (dims_shotClosed s0.boardWidth s0.boardHeight) cx cy pat side [o] acc ⟨hW, hH⟩
        simpa using this
      rw [ih (patternStep cx cy pat side acc o) hdims.1 hdims.2 a b side2 hinvalid]
      rcases hval : isValidPosition acc.2.1 (cx + o.dx) (cy + o.dy) with _ | _
      · simp only [patternStep, hval, Bool.not_false, if_true]
      · rcases hcell : isCellShot acc.2.1 (cx + o.dx) (cy + o.dy) side with _ | _
        · simp only [patternStep, hval, Bool.not_true, Bool.false_eq_true, if_false, hcell]
          apply executeShot_get_ne
          rintro ⟨rfl, rfl⟩
          rw [← isValidPosition_congr s0 acc.2.1 _ _ hW hH, hval] at hinvalid
          exact Bool.noConfusion hinvalid
        · simp only [patternStep, hval, Bool.not_true, Bool.false_eq_true, if_false, hcell,
            if_true]

/-- C5: pattern resolution degrades gracefully per offset.  The returned
shot list has exactly one entry per offset at the offset target; an
out-of-bounds target is recorded not-executed with a false hit flag and
the board keeps no record at any out-of-bounds cell; an already-shot
target is recorded not-executed but surfaces the stored hit value; and
per offset the `executed` flag is exactly «on the board and not already
shot when the loop reaches it», so every remaining fresh target is shot
and recorded executed.  Concretely: in Scenario C (cross pattern at corner
(0,0) of a 10×10 board) the (-1,0) and (0,-1) entries are not-executed, 5
entries come back and only 3 execute; and a cross at the already-shot
(5,5) records the in-bounds centre not-executed with the stored hit while
the four fresh neighbours execute. -/
theorem C5_pattern_partial_execution :
    (∀ (s : EngineState) (cx cy : Int) (pat : ShotPattern) (side : Bool),
      s.isGameOver = false →
      ((executeShotPattern s cx cy pat side).1.shots.length = pat.offsets.length ∧
       List.Forall₂ (fun (o : ShotOffset) (e : PatternShot) =>
         e.x = cx + o.dx ∧ e.y = cy + o.dy) pat.offsets
         (executeShotPattern s cx cy pat side).1.shots ∧
       (∀ e ∈ (executeShotPattern s cx cy pat side).1.shots,
         isValidPosition s e.x e.y = false → e.executed = false ∧ e.hit = false) ∧
       (∀ e ∈ (executeShotPattern s cx cy pat side).1.shots,
         e.executed = false → isValidPosition s e.x e.y = true →
         ∃ st, getShotAtPosition (executeShotPattern s cx cy pat side).2.1 e.x e.y side = some st ∧
           e.hit = st.hit) ∧
       (∀ (a b : Int) (side2 : Bool), isValidPosition s a b = false →
         getShotAtPosition (executeShotPattern s cx cy pat side).2.1 a b side2 =
           getShotAtPosition s a b side2) ∧
       (∀ (i : Nat) (o : ShotOffset) (e : PatternShot),
         pat.offsets.get? i = some o →
         (executeShotPattern s cx cy pat side).1.shots.get? i = some e →
         e.executed = (isValidPosition s (cx + o.dx) (cy + o.dy) &&
           !isCellShot ((pat.offsets.take i).foldl (patternStep cx cy pat side)
               ([], s, [])).2.1
             (cx + o.dx) (cy + o.dy) side)))) ∧
    ((executeShotPattern demoEmpty 0 0 CROSS_SHOT true).1.shots.map
        (fun e => (e.x, e.y, e.executed)) =
      [((0 : Int), (0 : Int), true), (-1, 0, false), (1, 0, true), (0, -1, false), (0, 1, true)] ∧
     ((executeShotPattern demoEmpty 0 0 CROSS_SHOT true).1.shots.filter
        (fun e => e.executed)).length = 3 ∧
     (executeShotPattern (executeShot demoBoardT 5 5 true false none).2.1
         5 5 CROSS_SHOT true).1.shots.map (fun e => (e.x, e.y, e.executed, e.hit)) =
       [((5 : Int), (5 : Int), false, true), (4, 5, true, false), (6, 5, true, false),
        (5, 4, true, false), (5, 6, true, false)]) := by
  constructor
  · intro s cx cy pat side h
    have hshape := foldl_patternStep_shape cx cy pat side pat.offsets ([], s, [])
    obtain ⟨rest, hrest, hfa⟩ := hshape
    have hentries := foldl_patternStep_entries s cx cy pat side pat.offsets ([], s, [])
      rfl rfl (by intro e he; exact absurd he (List.not_mem_nil e))
    have huntouched := foldl_patternStep_invalid_untouched s cx cy pat side pat.offsets
      ([], s, []) rfl rfl
    have hshots : (executeShotPattern s cx cy pat side).1.shots =
        (pat.offsets.foldl (patternStep cx cy pat side) ([], s, [])).1 := by
      unfold executeShotPattern
      rw [if_neg (by simp [h])]
    have hstate : (executeShotPattern s cx cy pat side).2.1 =
        (pat.offsets.foldl (patternStep cx cy pat side) ([], s, [])).2.1 := by
      unfold executeShotPattern
      rw [if_neg (by simp [h])]
    refine ⟨?_, ?_, ?_, ?_, ?_, ?_⟩
    · rw [hshots, hrest, List.nil_append, ← List.Forall₂.length_eq hfa]
    · rw [hshots, hrest, List.nil_append]
      exact hfa
    · intro e he hv
      rw [hshots] at he
      exact (hentries e he).1 hv
    · intro e he hexec hv
      rw [hshots] at he
      rw [hstate]
      exact (hentries e he).2 hexec hv
    · intro a b side2 hinv
      rw [hstate]
      exact huntouched a b side2 hinv
    · intro i o e hgo hge
      rw [hshots] at hge
      exact foldl_patternStep_executed s cx cy pat side pat.offsets ([], s, []) rfl rfl i o e
        hgo (by simpa using hge)
  · exact ⟨by decide, by decide, by decide⟩

/-- Witness for C5: the Scenario C cross attack instanced through the
universally quantified part, and the per-offset classification instanced
at the already-shot in-bounds centre of a cross at (5,5), recorded
not-executed. -/
theorem C5_pattern_partial_execution_witness :
    (executeShotPattern demoEmpty 0 0 CROSS_SHOT true).1.shots.length =
      CROSS_SHOT.offsets.length ∧
    ({ x := 5, y := 5, hit := true, shipId := some 0,
       executed := false } : PatternShot).executed =
      (isValidPosition (executeShot demoBoardT 5 5 true false none).2.1 5 5 &&
        !isCellShot (executeShot demoBoardT 5 5 true false none).2.1 5 5 true) :=
  ⟨(C5_pattern_partial_execution.1 demoEmpty 0 0 CROSS_SHOT true (by decide)).1,
   (C5_pattern_partial_execution.1 (executeShot demoBoardT 5 5 true false none).2.1
       5 5 CROSS_SHOT true (by decide)).2.2.2.2.2 0 { dx := 0, dy := 0 }
     { x := 5, y := 5, hit := true, shipId := some 0, executed := false }
     (by decide) (by decide)⟩

/-- Full behaviour of `collectItem` through the side selectors: no item or
an already fully-collected item is a no-op returning `null`; otherwise the
counter of the covering item is bumped by exactly one and the item joins
the collected set exactly when the counter reaches its `part`. -/
theorem collectItem_spec (s : EngineState) (x y : Int) (side : Bool) :
    (itemIdAt (sideTargetItems s side) x y = none → collectItem s x y side = (none, s)) ∧
    (∀ id : Nat, itemIdAt (sideTargetItems s side) x y = some id →
      ((sideCollectedItems s side).contains id = true → collectItem s x y side = (none, s)) ∧
      ((sideCollectedItems s side).contains id = false →
        ((collectItem s x y side).1 = some
            { collected := true, itemId := id,
              itemFullyCollected := natMapGet (sideItemHits s side) id + 1 ==
                (((sideTargetItems s side).get? id).map GameItem.part).getD 0 } ∧
         sideItemHits (collectItem s x y side).2 side =
           natMapSet (sideItemHits s side) id (natMapGet (sideItemHits s side) id + 1) ∧
         sideItemHits (collectItem s x y side).2 (!side) = sideItemHits s (!side) ∧
         sideCollectedItems (collectItem s x y side).2 side =
           (if (natMapGet (sideItemHits s side) id + 1 ==
                 (((sideTargetItems s side).get? id).map GameItem.part).getD 0) = true then
             (sideCollectedItems s side) ++ [id]
           else sideCollectedItems s side) ∧
         sideCollectedItems (collectItem s x y side).2 (!side) =
           sideCollectedItems s (!side)))) := by
  constructor
  · intro hnone
    cases side <;>
      simp_all [collectItem, sideTargetItems]
  · intro id hid
    constructor
    · intro hin
      cases side <;>
        simp_all [collectItem, sideTargetItems, sideCollectedItems]
    · intro hout
      cases side <;>
        simp_all [collectItem, sideTargetItems, sideCollectedItems, sideItemHits]

/-- Unfolding the position-cache fold: a cache answer names a stored entry
covering the queried cell. -/
theorem enumFoldCover {α : Type} (cellsOf : α → List (Int × Int)) (x y : Int) :
    ∀ (l : List α) (k : Nat) (acc : Option Nat) (id : Nat),
      ((l.enumFrom k).foldl
        (fun acc p => if (cellsOf p.2).contains (x, y) then some p.1 else acc) acc) = some id →
      (acc = some id ∨ ∃ (j : Nat) (a : α), l.get? j = some a ∧ id = k + j ∧ (x, y) ∈ cellsOf a) := by
  intro l
  induction l with
  | nil => intro k acc id h; exact Or.inl h
  | cons a t ih =>
      intro k acc id h
      rw [show List.enumFrom k (a :: t) = (k, a) :: List.enumFrom (k + 1) t from rfl,
        List.foldl_cons] at h
      rcases ih (k + 1) _ id h with hacc | ⟨j, b, hg, hid, hmem⟩
      · by_cases hc : (cellsOf a).contains (x, y) = true
        · rw [if_pos hc] at hacc
          refine Or.inr ⟨0, a, rfl, ?_, ?_⟩
          · have hk := Option.some.inj hacc
            omega
          · simpa using hc
        · rw [if_neg hc] at hacc
          exact Or.inl hacc
      · exact Or.inr ⟨j + 1, b, hg, by omega, hmem⟩

/-- A position-cache answer for items names a stored item covering the
cell. -/
theorem itemIdAt_some (items : List GameItem) (x y : Int) (id : Nat)
    (h : itemIdAt items x y = some id) :
    ∃ item, items.get? id = some item ∧ (x, y) ∈ itemCells item := by
  unfold itemIdAt at h
  rcases enumFoldCover itemCells x y items 0 none id h with habs | ⟨j, a, hg, hid, hmem⟩
  · exact absurd habs (by simp)
  · have hj : id = j := by omega
    subst hj
    exact ⟨a, hg, hmem⟩

/-- A position-cache answer for ships names a stored ship covering the
cell. -/
theorem shipIdAt_some (ships : List GameShip) (x y : Int) (id : Nat)
    (h : shipIdAt ships x y = some id) :
    ∃ ship, ships.get? id = some ship ∧ (x, y) ∈ getShipCellsFromShip ship := by
  unfold shipIdAt at h
  rcases enumFoldCover getShipCellsFromShip x y ships 0 none id h with habs | ⟨j, a, hg, hid, hmem⟩
  · exact absurd habs (by simp)
  · have hj : id = j := by omega
    subst hj
    exact ⟨a, hg, hmem⟩

/-- One collection step keeps the per-side item invariant. -/
theorem itemInvSide_update (items : List GameItem) (hits : List (Nat × Nat))
    (collected : List Nat) (hok : itemsOk items) (hinv : itemInvSide items hits collected)
    (id : Nat) (item : GameItem) (hget : items.get? id = some item)
    (hout : collected.contains id = false) :
    itemInvSide items (natMapSet hits id (natMapGet hits id + 1))
      (if (natMapGet hits id + 1 == item.part) = true then collected ++ [id]
       else collected) := by
  intro id2 item2 hget2
  by_cases heq : id2 = id
  · subst heq
    rw [hget] at hget2
    injection hget2 with hitem
    subst hitem
    obtain ⟨hle, hiff⟩ := hinv id2 item hget
    have hlt : natMapGet hits id2 < item.part := by
      rcases Nat.lt_or_ge (natMapGet hits id2) item.part with hlt | hge
      · exact hlt
      · have heq2 : natMapGet hits id2 = item.part := le_antisymm hle hge
        rw [← hiff] at heq2
        rw [hout] at heq2
        exact Bool.noConfusion heq2
    rw [natMapGet_set_self]
    refine ⟨by omega, ?_⟩
    by_cases hfull : (natMapGet hits id2 + 1 == item.part) = true
    · rw [if_pos hfull]
      constructor
      · intro _
        simpa using hfull
      · intro _
        simp
    · rw [if_neg hfull]
      constructor
      · intro hc
        rw [hout] at hc
        exact Bool.noConfusion hc
      · intro hc
        exact absurd (by simpa using hc) hfull
  · rw [natMapGet_set_ne _ _ _ _ heq]
    obtain ⟨hle, hiff⟩ := hinv id2 item2 hget2
    refine ⟨hle, ?_⟩
    by_cases hfull : (natMapGet hits id + 1 == item.part) = true
    · rw [if_pos hfull]
      have hcc : ((collected ++ [id]).contains id2) = collected.contains id2 := by
        simp [heq]
      rw [hcc]
      exact hiff
    · rw [if_neg hfull]
      exact hiff

/-- `collectItem` keeps the item invariant. -/
theorem collectItem_itemInv (s : EngineState) (x y : Int) (side : Bool)
    (h : itemInv s) : itemInv (collectItem s x y side).2 := by
  rcases hid : itemIdAt (sideTargetItems s side) x y with _ | id
  · rw [(collectItem_spec s x y side).1 hid]
    exact h
  · rcases hcon : (sideCollectedItems s side).contains id with _ | _
    · obtain ⟨hres, hhits, hhits2, hcollected, hcollected2⟩ :=
        ((collectItem_spec s x y side).2 id hid).2 hcon
      obtain ⟨itm, hget, -⟩ := itemIdAt_some _ x y id hid
      obtain ⟨hok1, hok2, hinv1, hinv2⟩ := h
      have hpart : (((sideTargetItems s side).get? id).map GameItem.part).getD 0 = itm.part := by
        rw [hget]
        rfl
      rw [hpart] at hcollected
      cases side
      · -- enemy shooting: player items are attacked
        refine ⟨?_, ?_, ?_, ?_⟩
        · intro item hm
          rw [show (collectItem s x y false).2.playerItems = s.playerItems from by simp] at hm
          exact hok1 item hm
        · intro item hm
          rw [show (collectItem s x y false).2.enemyItems = s.enemyItems from by simp] at hm
          exact hok2 item hm
        · rw [show (collectItem s x y false).2.playerItems = s.playerItems from by simp]
          have e1 : (collectItem s x y false).2.playerItemHits =
              natMapSet s.playerItemHits id (natMapGet s.playerItemHits id + 1) := hhits
          have e2 : (collectItem s x y false).2.playerCollectedItems =
              (if (natMapGet s.playerItemHits id + 1 == itm.part) = true then
                s.playerCollectedItems ++ [id] else s.playerCollectedItems) := hcollected
          rw [e1, e2]
          exact itemInvSide_update s.playerItems s.playerItemHits s.playerCollectedItems
            hok1 hinv1 id itm hget hcon
        · rw [show (collectItem s x y false).2.enemyItems = s.enemyItems from by simp]
          have e1 : (collectItem s x y false).2.enemyItemHits = s.enemyItemHits := hhits2
          have e2 : (collectItem s x y false).2.enemyCollectedItems = s.enemyCollectedItems :=
            hcollected2
          rw [e1, e2]
          exact hinv2
      · -- player shooting: enemy items are attacked
        refine ⟨?_, ?_, ?_, ?_⟩
        · intro item hm
          rw [show (collectItem s x y true).2.playerItems = s.playerItems from by simp] at hm
          exact hok1 item hm
        · intro item hm
          rw [show (collectItem s x y true).2.enemyItems = s.enemyItems from by simp] at hm
          exact hok2 item hm
        · rw [show (collectItem s x y true).2.playerItems = s.playerItems from by simp]
          have e1 : (collectItem s x y true).2.playerItemHits = s.playerItemHits := hhits2
          have e2 : (collectItem s x y true).2.playerCollectedItems = s.playerCollectedItems :=
            hcollected2
          rw [e1, e2]
          exact hinv1
        · rw [show (collectItem s x y true).2.enemyItems = s.enemyItems from by simp]
          have e1 : (collectItem s x y true).2.enemyItemHits =
              natMapSet s.enemyItemHits id (natMapGet s.enemyItemHits id + 1) := hhits
          have e2 : (collectItem s x y true).2.enemyCollectedItems =
              (if (natMapGet s.enemyItemHits id + 1 == itm.part) = true then
                s.enemyCollectedItems ++ [id] else s.enemyCollectedItems) := hcollected
          rw [e1, e2]
          exact itemInvSide_update s.enemyItems s.enemyItemHits s.enemyCollectedItems
            hok2 hinv2 id itm hget hcon
    · rw [((collectItem_spec s x y side).2 id hid).1 hcon]
      exact h

/-- Collection counters never decrease under `collectItem`. -/
theorem collectItem_hits_mono (s : EngineState) (x y : Int) (side : Bool)
    (id : Nat) (side2 : Bool) :
    natMapGet (sideItemHits s side2) id ≤
      natMapGet (sideItemHits (collectItem s x y side).2 side2) id := by
  rcases hid : itemIdAt (sideTargetItems s side) x y with _ | id0
  · rw [(collectItem_spec s x y side).1 hid]
  · rcases hcon : (sideCollectedItems s side).contains id0 with _ | _
    · obtain ⟨-, hhits, hhits2, -, -⟩ := ((collectItem_spec s x y side).2 id0 hid).2 hcon
      by_cases hs : side2 = side
      · subst hs
        rw [hhits]
        by_cases hid2 : id0 = id
        · subst hid2
          rw [natMapGet_set_self]
          omega
        · rw [natMapGet_set_ne _ _ _ _ (fun hh => hid2 hh.symm)]
      · have hflip : side2 = !side := by cases side <;> cases side2 <;> simp_all
        rw [hflip, hhits2]
    · rw [((collectItem_spec s x y side).2 id0 hid).1 hcon]

/-- Collection counters never decrease under `executeShot`. -/
theorem executeShot_itemHits_mono (s : EngineState) (x y : Int) (side supp : Bool)
    (info : Option PatternInfo) (id : Nat) (side2 : Bool) :
    natMapGet (sideItemHits s side2) id ≤
      natMapGet (sideItemHits (executeShot s x y side supp info).2.1 side2) id := by
  rcases hcell : isCellShot s x y side with _ | _
  · rcases hhit : (checkShot s x y side).1 with _ | _
    · obtain ⟨f1, f2, -, -, -, -, -⟩ := executeShot_items_miss s x y side supp info hcell hhit
      have hle := collectItem_hits_mono s x y side id side2
      cases side2
      · simpa [sideItemHits, f1] using hle
      · simpa [sideItemHits, f2] using hle
    · obtain ⟨f1, f2, -, -, -, -, -⟩ := executeShot_items_hit s x y side supp info hcell hhit
      cases side2 <;> simp [sideItemHits, f1, f2]
  · rw [executeShot_cellAlreadyShot s x y side supp info hcell]

/-- Collection counters never decrease across the pattern loop. -/
theorem foldl_patternStep_itemHits_mono (cx cy : Int) (pat : ShotPattern) (side : Bool)
    (id : Nat) (side2 : Bool) :
    ∀ (offs : List ShotOffset) (acc : List PatternShot × EngineState × List EngineEvent),
      natMapGet (sideItemHits acc.2.1 side2) id ≤
        natMapGet (sideItemHits ((offs.foldl (patternStep cx cy pat side) acc)).2.1 side2) id := by
  intro offs
  induction offs with
  | nil => intro acc; exact le_refl _
  | cons o rest ih =>
      intro acc
      rw [List.foldl_cons]
      refine le_trans ?_ (ih (patternStep cx cy pat side acc o))
      rcases hval : isValidPosition acc.2.1 (cx + o.dx) (cy + o.dy) with _ | _
      · simp only [patternStep, hval, Bool.not_false, if_true]
        exact le_refl _
      · rcases hcell : isCellShot acc.2.1 (cx + o.dx) (cy + o.dy) side with _ | _
        · simp only [patternStep, hval, Bool.not_true, Bool.false_eq_true, if_false, hcell]
          exact executeShot_itemHits_mono acc.2.1 _ _ side true _ id side2
        · simp only [patternStep, hval, Bool.not_true, Bool.false_eq_true, if_false, hcell,
            if_true]
          exact le_refl _

/-- Collection counters never decrease under any engine operation list. -/
theorem runOps_itemHits_mono (id : Nat) (side2 : Bool) :
    ∀ (ops : List EngOp) (s : EngineState),
      natMapGet (sideItemHits s side2) id ≤ natMapGet (sideItemHits (runOps ops s) side2) id := by
  intro ops
  induction ops with
  | nil => intro s; exact le_refl _
  | cons op rest ih =>
      intro s
      rw [runOps, List.foldl_cons]
      refine le_trans ?_ (ih (applyOp op s))
      cases op with
      | pattern cx cy p sd =>
          show natMapGet (sideItemHits s side2) id ≤
            natMapGet (sideItemHits (executeShotPattern s cx cy p sd).2.1 side2) id
          unfold executeShotPattern
          split_ifs
          · exact le_refl _
          · exact foldl_patternStep_itemHits_mono cx cy p sd id side2 p.offsets ([], s, [])
      | toggle => cases side2 <;> exact le_refl _
      | setOver w => cases side2 <;> exact le_refl _

/-- `executeShot` keeps the item invariant. -/
theorem executeShot_itemInv : ShotClosed itemInv := by
  intro s x y side supp info h
  rcases hcell : isCellShot s x y side with _ | _
  · obtain ⟨-, -, -, -, -, -, -, hPI, hEI⟩ := executeShot_frame s x y side supp info
    rcases hhit : (checkShot s x y side).1 with _ | _
    · obtain ⟨f1, f2, f3, f4, -, -, -⟩ := executeShot_items_miss s x y side supp info hcell hhit
      have hc := collectItem_itemInv s x y side h
      simp only [itemInv] at hc ⊢
      rw [f1, f2, f3, f4, hPI, hEI]
      simpa using hc
    · obtain ⟨f1, f2, f3, f4, -, -, -⟩ := executeShot_items_hit s x y side supp info hcell hhit
      simp only [itemInv] at h ⊢
      rw [f1, f2, f3, f4, hPI, hEI]
      exact h
  · rw [executeShot_cellAlreadyShot s x y side supp info hcell]
    exact h

/-- The item invariant survives every engine operation. -/
theorem itemInv_engClosed : EngClosed itemInv :=
  ⟨executeShot_itemInv, fun _ h => h, fun _ _ h => h⟩

/-- A fresh `initializeGame` establishes the item invariant (all counters
zero, nothing collected) as long as every placed item has `part ≥ 1`. -/
theorem initializeGame_itemInv (pShips eShips : List GameShip) (turn : GameTurn)
    (pItems eItems : List GameItem) (W H : Int)
    (hp : itemsOk pItems) (he : itemsOk eItems) :
    itemInv (initializeGame pShips eShips turn pItems eItems W H).1 := by
  simp only [itemInv, itemInvSide, initializeGame]
  refine ⟨hp, he, ?_, ?_⟩
  · intro id item hget
    refine ⟨Nat.zero_le _, ?_, ?_⟩
    · intro hc
      exact absurd hc (by simp [List.contains])
    · intro h0
      exfalso
      have hmem : item ∈ pItems := List.get?_mem hget
      have h1 := hp item hmem
      have h00 : natMapGet [] id = 0 := rfl
      rw [h00] at h0
      omega
  · intro id item hget
    refine ⟨Nat.zero_le _, ?_, ?_⟩
    · intro hc
      exact absurd hc (by simp [List.contains])
    · intro h0
      exfalso
      have hmem : item ∈ eItems := List.get?_mem hget
      have h1 := he item hmem
      have h00 : natMapGet [] id = 0 := rfl
      rw [h00] at h0
      omega

/-- C6: item collection is attempted only for shots that miss all ships;
`collectItem` returns `null` with no counter change when no item occupies
the cell or the item is already fully collected; otherwise it bumps the
covering item counter by exactly one and marks it fully collected exactly
when the counter equals the item part; counters are monotonic under every
engine operation and, at every state reachable from a fresh
initialization with `part ≥ 1` items, bounded by `part` with
"fully collected iff counter equals part" — so a shot on a fully
collected item cell is a neutral no-op. -/
theorem C6_item_collection :
    (∀ (s : EngineState) (x y : Int) (side supp : Bool) (info : Option PatternInfo),
      isCellShot s x y side = false → (checkShot s x y side).1 = true →
      ((executeShot s x y side supp info).2.1.playerItemHits = s.playerItemHits ∧
       (executeShot s x y side supp info).2.1.enemyItemHits = s.enemyItemHits ∧
       (executeShot s x y side supp info).1.collected = false)) ∧
    (∀ (s : EngineState) (x y : Int) (side : Bool),
      itemIdAt (sideTargetItems s side) x y = none → collectItem s x y side = (none, s)) ∧
    (∀ (s : EngineState) (x y : Int) (side : Bool) (id : Nat),
      itemIdAt (sideTargetItems s side) x y = some id →
      (sideCollectedItems s side).contains id = true → collectItem s x y side = (none, s)) ∧
    (∀ (s : EngineState) (x y : Int) (side : Bool) (id : Nat),
      itemIdAt (sideTargetItems s side) x y = some id →
      (sideCollectedItems s side).contains id = false →
      (natMapGet (sideItemHits (collectItem s x y side).2 side) id =
        natMapGet (sideItemHits s side) id + 1 ∧
       (collectItem s x y side).1 = some
         { collected := true, itemId := id,
           itemFullyCollected := natMapGet (sideItemHits s side) id + 1 ==
             (((sideTargetItems s side).get? id).map GameItem.part).getD 0 } ∧
       ((sideCollectedItems (collectItem s x y side).2 side).contains id = true ↔
         (natMapGet (sideItemHits s side) id + 1 ==
           (((sideTargetItems s side).get? id).map GameItem.part).getD 0) = true))) ∧
    (∀ (ops : List EngOp) (s : EngineState) (id : Nat) (side2 : Bool),
      natMapGet (sideItemHits s side2) id ≤ natMapGet (sideItemHits (runOps ops s) side2) id) ∧
    (∀ (ops : List EngOp) (pShips eShips : List GameShip) (turn : GameTurn)
       (pItems eItems : List GameItem) (W H : Int),
      itemsOk pItems → itemsOk eItems →
      itemInv (runOps ops (initializeGame pShips eShips turn pItems eItems W H).1)) ∧
    (∀ (s : EngineState) (x y : Int) (side : Bool) (id : Nat) (item : GameItem),
      itemInv s →
      itemIdAt (sideTargetItems s side) x y = some id →
      (sideTargetItems s side).get? id = some item →
      natMapGet (sideItemHits s side) id = item.part →
      collectItem s x y side = (none, s)) := by
  refine ⟨?_, ?_, ?_, ?_, ?_, ?_, ?_⟩
  · intro s x y side supp info hcell hhit
    obtain ⟨f1, f2, -, -, hcol, -, -⟩ := executeShot_items_hit s x y side supp info hcell hhit
    exact ⟨f1, f2, hcol⟩
  · intro s x y side hid
    exact (collectItem_spec s x y side).1 hid
  · intro s x y side id hid hcon
    exact ((collectItem_spec s x y side).2 id hid).1 hcon
  · intro s x y side id hid hcon
    obtain ⟨hres, hhits, -, hcollected, -⟩ := ((collectItem_spec s x y side).2 id hid).2 hcon
    refine ⟨?_, hres, ?_⟩
    · rw [hhits, natMapGet_set_self]
    · rw [hcollected]
      by_cases hfull : (natMapGet (sideItemHits s side) id + 1 ==
          (((sideTargetItems s side).get? id).map GameItem.part).getD 0) = true
      · rw [if_pos hfull]
        constructor
        · intro _
          exact hfull
        · intro _
          simp
      · rw [if_neg hfull]
        constructor
        · intro hc
          rw [hcon] at hc
          exact Bool.noConfusion hc
        · intro hc
          exact absurd hc hfull
  · intro ops s id side2
    exact runOps_itemHits_mono id side2 ops s
  · intro ops pShips eShips turn pItems eItems W H hp he
    exact runOps_closed itemInv itemInv_engClosed ops _
      (initializeGame_itemInv pShips eShips turn pItems eItems W H hp he)
  · intro s x y side id item hinv hid hget hfull
    have hcon : (sideCollectedItems s side).contains id = true := by
      obtain ⟨-, -, hinv1, hinv2⟩ := hinv
      cases side
      · exact (hinv1 id item hget).2.mpr hfull
      · exact (hinv2 id item hget).2.mpr hfull
    exact ((collectItem_spec s x y side).2 id hid).1 hcon

/-- Witness for C6: Scenario D on the concrete item board — a first miss
on the item at (5,7) bumps its counter to 1 and does not yet fully collect
the 3-part item. -/
theorem C6_item_collection_witness :
    natMapGet (sideItemHits (collectItem demoBoardI 5 7 true).2 true) 0 =
      natMapGet (sideItemHits demoBoardI true) 0 + 1 ∧
    (collectItem demoBoardI 5 7 true).1 = some
      { collected := true, itemId := 0,
        itemFullyCollected := natMapGet (sideItemHits demoBoardI true) 0 + 1 ==
          (((sideTargetItems demoBoardI true).get? 0).map GameItem.part).getD 0 } :=
  ⟨(C6_item_collection.2.2.2.1 demoBoardI 5 7 true 0 (by decide) (by decide)).1,
   (C6_item_collection.2.2.2.1 demoBoardI 5 7 true 0 (by decide) (by decide)).2.1⟩

/-- The cells of a width × height rectangle are pairwise distinct. -/
theorem getShip2DCells_nodup (x y : Int) (w h : Nat) :
    (getShip2DCells x y w h).Nodup := by
  have hM : ((List.range w).flatMap fun a => pure ((a : Int))).Nodup := by
    rw [List.nodup_flatMap]
    constructor
    · intro a _
      exact List.nodup_singleton _
    · refine List.Pairwise.imp ?_ (List.pairwise_lt_range w)
      intro a b hlt
      intro c hc hc'
      simp only [List.pure_def, List.mem_singleton] at hc hc'
      subst hc
      omega
  unfold getShip2DCells
  rw [List.nodup_flatMap]
  constructor
  · intro r _
    apply List.Nodup.map
    · intro a b hab
      have hx : x + a = x + b := congrArg Prod.fst hab
      omega
    · exact hM
  · refine List.Pairwise.imp ?_ (List.pairwise_lt_range h)
    intro r r' hlt
    intro c hc hc'
    simp only [List.mem_map] at hc hc'
    obtain ⟨a, ha, hca⟩ := hc
    obtain ⟨b, hb, hcb⟩ := hc'
    have h1 : y + (r : Int) = c.2 := congrArg Prod.snd hca
    have h2 : y + (r' : Int) = c.2 := congrArg Prod.snd hcb
    omega

/-- A stored ship induces a duplicate-free cell list. -/
theorem getShipCellsFromShip_nodup (ship : GameShip) :
    (getShipCellsFromShip ship).Nodup :=
  getShip2DCells_nodup ship.coordsX ship.coordsY ship.width ship.height

/-- Filtering a duplicate-free list with a predicate enlarged at exactly
one fresh member grows the count by exactly one. -/
theorem filter_length_fresh {α : Type} (p q : α → Bool) (e : α) :
    ∀ l : List α, l.Nodup → e ∈ l → p e = false → q e = true →
      (∀ a ∈ l, a ≠ e → q a = p a) →
      (l.filter q).length = (l.filter p).length + 1 := by
  intro l
  induction l with
  | nil => intro _ he; cases he
  | cons a t ih =>
      intro hnd he hpe hqe hagree
      obtain ⟨hat, hndt⟩ := List.nodup_cons.mp hnd
      rcases List.mem_cons.mp he with rfl | het
      · have hfilter : t.filter q = t.filter p := by
          apply List.filter_congr
          intro c hc
          exact hagree c (List.mem_cons_of_mem _ hc) (fun hce => hat (hce ▸ hc))
        simp [List.filter_cons, hqe, hpe, hfilter]
      · have hae : a ≠ e := fun hh => hat (hh ▸ het)
        have hqa : q a = p a := hagree a (List.mem_cons_self a t) hae
        have hrest := ih hndt het hpe hqe
          (fun c hc hce => hagree c (List.mem_cons_of_mem _ hc) hce)
        rcases hpa : p a with _ | _ <;>
          simp [List.filter_cons, hqa, hpa, hrest]

/-- `executeShot` keeps both ship arrays, through the side selector. -/
theorem executeShot_targetShips (s : EngineState) (x y : Int) (side supp : Bool)
    (info : Option PatternInfo) (b : Bool) :
    sideTargetShips (executeShot s x y side supp info).2.1 b = sideTargetShips s b := by
  cases b
  · show (executeShot s x y side supp info).2.1.playerShips = s.playerShips
    exact (executeShot_frame s x y side supp info).2.1
  · show (executeShot s x y side supp info).2.1.enemyShips = s.enemyShips
    exact (executeShot_frame s x y side supp info).2.2.1

/-- Inserting a key into a shots map answers `has` positively exactly for
the old keys and the new one. -/
theorem shotsMapHas_set (m : ShotsMap) (x y : Int) (sh : Shot) (a b : Int) :
    shotsMapHas (shotsMapSet m x y sh) a b =
      (shotsMapHas m a b || (a == x && b == y)) := by
  by_cases hab : a = x ∧ b = y
  · obtain ⟨rfl, rfl⟩ := hab
    rw [shotsMapHas, shotsMapGet_set_self]
    simp
  · rw [shotsMapHas, shotsMapGet_set_ne m x y sh a b hab]
    have hb : (a == x && b == y) = false := by
      rcases not_and_or.mp hab with h1 | h1 <;> simp [h1]
    rw [hb, Bool.or_false]
    rfl

/-- The attacked fleet keeps the hit accounting invariant through one
`executeShot` call. -/
theorem executeShot_hitsInvSide (s : EngineState) (x y : Int) (side supp : Bool)
    (info : Option PatternInfo)
    (hinv : hitsInvSide (sideTargetShips s side) (sideHitsMap s side) (sideShotsMap s side)) :
    hitsInvSide (sideTargetShips (executeShot s x y side supp info).2.1 side)
      (sideHitsMap (executeShot s x y side supp info).2.1 side)
      (sideShotsMap (executeShot s x y side supp info).2.1 side) := by
  rcases hcell : isCellShot s x y side with _ | _
  · obtain ⟨rec, hmap, -⟩ := executeShot_attackMap s x y side supp info hcell
    intro id ship hget
    rw [executeShot_targetShips] at hget
    rw [executeShot_targetShips, executeShot_hitsMap s x y side supp info hcell id, hmap]
    have hbase := hinv id ship hget
    have hhasxy : shotsMapHas (sideShotsMap s side) x y = false := by
      rw [← isCellShot_eq]; exact hcell
    by_cases hsid : shipIdAt (sideTargetShips s side) x y = some id
    · rw [if_pos hsid]
      obtain ⟨ship', hget', hmem⟩ := shipIdAt_some _ x y id hsid
      rw [hget] at hget'
      have hmemc : (x, y) ∈ getShipCellsFromShip ship := by
        rw [Option.some.inj hget']; exact hmem
      rw [hbase]
      have hcount := filter_length_fresh
        (fun c => (shipIdAt (sideTargetShips s side) c.1 c.2 == some id) &&
          shotsMapHas (sideShotsMap s side) c.1 c.2)
        (fun c => (shipIdAt (sideTargetShips s side) c.1 c.2 == some id) &&
          shotsMapHas (shotsMapSet (sideShotsMap s side) x y rec) c.1 c.2)
        (x, y) (getShipCellsFromShip ship) (getShipCellsFromShip_nodup ship) hmemc
        (by simp [hhasxy])
        (by simp [shotsMapHas, shotsMapGet_set_self, hsid])
        (by
          intro c hc hce
          have hne : ¬(c.1 = x ∧ c.2 = y) := by
            intro hh
            exact hce (Prod.ext hh.1 hh.2)
          simp only [shotsMapHas]
          rw [shotsMapGet_set_ne _ _ _ _ _ _ hne])
      rw [hcount]
    · rw [if_neg hsid, Nat.add_zero, hbase]
      congr 1
      apply List.filter_congr
      intro c hc
      by_cases hcxy : c.1 = x ∧ c.2 = y
      · have hbeq : (shipIdAt (sideTargetShips s side) c.1 c.2 == some id) = false := by
          rw [hcxy.1, hcxy.2]
          simpa using hsid
        simp [hbeq]
      · simp only [shotsMapHas]
        rw [shotsMapGet_set_ne _ _ _ _ _ _ hcxy]
  · rw [executeShot_cellAlreadyShot s x y side supp info hcell]
    exact hinv

/-- The ship accounting invariant survives every `executeShot`. -/
theorem executeShot_shipHitsInv : ShotClosed shipHitsInv := by
  intro s x y side supp info h
  have h' : ∀ b : Bool,
      hitsInvSide (sideTargetShips s b) (sideHitsMap s b) (sideShotsMap s b) := by
    intro b
    cases b
    · exact h.2
    · exact h.1
  have hout : ∀ b : Bool,
      hitsInvSide (sideTargetShips (executeShot s x y side supp info).2.1 b)
        (sideHitsMap (executeShot s x y side supp info).2.1 b)
        (sideShotsMap (executeShot s x y side supp info).2.1 b) := by
    intro b
    by_cases hb : b = side
    · subst hb
      exact executeShot_hitsInvSide s x y b supp info (h' b)
    · have hb' : b = !side := by
        cases b <;> cases side <;> simp_all
      subst hb'
      rw [executeShot_targetShips, executeShot_otherHits, executeShot_otherMap]
      exact h' (!side)
  exact ⟨hout true, hout false⟩

/-- The ship accounting invariant survives every engine operation. -/
theorem shipHitsInv_engClosed : EngClosed shipHitsInv := by
  refine ⟨executeShot_shipHitsInv, ?_, ?_⟩
  · intro s h
    exact h
  · intro s w h
    exact h

/-- `initializeGame` establishes the ship accounting invariant: all hit
counters and all shots maps start empty. -/
theorem initializeGame_shipHitsInv (pShips eShips : List GameShip) (turn : GameTurn)
    (pItems eItems : List GameItem) (W H : Int) :
    shipHitsInv (initializeGame pShips eShips turn pItems eItems W H).1 := by
  constructor <;>
    · intro id ship _hget
      simp [initializeGame, natMapGet, shotsMapHas, shotsMapGet]

/-- Every state reachable by engine operations from a fresh game keeps the
ship accounting invariant. -/
theorem runOps_shipHitsInv (ops : List EngOp) (pShips eShips : List GameShip)
    (turn : GameTurn) (pItems eItems : List GameItem) (W H : Int) :
    shipHitsInv (runOps ops (initializeGame pShips eShips turn pItems eItems W H).1) :=
  runOps_closed shipHitsInv shipHitsInv_engClosed ops _
    (initializeGame_shipHitsInv pShips eShips turn pItems eItems W H)

/-- For a ship actually stored at its index, `isShipDestroyed` answers
exactly the comparison of the hit counter with the cell count. -/
theorem isShipDestroyed_iff (s : EngineState) (side : Bool) (id : Nat) (ship : GameShip)
    (hget : (sideTargetShips s side).get? id = some ship) :
    (isShipDestroyed s id side = true ↔
      natMapGet (sideHitsMap s side) id = (getShipCellsFromShip ship).length) := by
  have hlt : id < (sideTargetShips s side).length := by
    by_contra hle
    rw [List.get?_eq_none.mpr (Nat.le_of_not_lt hle)] at hget
    cases hget
  have hred : isShipDestroyed s id side =
      (if (sideTargetShips s side).length ≤ id then false
       else match shipSize (sideTargetShips s side) id with
         | none => false
         | some size => natMapGet (sideHitsMap s side) id == size) := rfl
  rw [hred, if_neg (Nat.not_le.mpr hlt)]
  unfold shipSize
  rw [hget]
  simp

/-- **C7.** Ship hit accounting.  (a) On an already-shot cell `executeShot`
leaves the state untouched; on a fresh cell it increments the hit counter
of exactly the ship assigned to the cell by the position cache (by one,
and of no other ship) and never touches the other fleet's counters — so a
counter only ever moves on the first shot of a previously-unshot cell
overlapping the ship.  (b) For every ship stored at its index,
`isShipDestroyed` reports destruction exactly when the hit counter equals
the ship's cell count.  (c) At every state reachable from `initializeGame`
by engine operations, every stored ship's hit counter is bounded by its
cell count (width × height). -/
theorem C7_ship_hit_accounting :
    (∀ (s : EngineState) (x y : Int) (side supp : Bool) (info : Option PatternInfo),
      (isCellShot s x y side = true → (executeShot s x y side supp info).2.1 = s) ∧
      (isCellShot s x y side = false → ∀ id : Nat,
        natMapGet (sideHitsMap (executeShot s x y side supp info).2.1 side) id =
          natMapGet (sideHitsMap s side) id +
            (if shipIdAt (sideTargetShips s side) x y = some id then 1 else 0)) ∧
      sideHitsMap (executeShot s x y side supp info).2.1 (!side) = sideHitsMap s (!side)) ∧
    (∀ (s : EngineState) (side : Bool) (id : Nat) (ship : GameShip),
      (sideTargetShips s side).get? id = some ship →
      (isShipDestroyed s id side = true ↔
        natMapGet (sideHitsMap s side) id = (getShipCellsFromShip ship).length)) ∧
    (∀ (ops : List EngOp) (pShips eShips : List GameShip) (turn : GameTurn)
        (pItems eItems : List GameItem) (W H : Int) (b : Bool) (id : Nat) (ship : GameShip),
      (sideTargetShips (runOps ops (initializeGame pShips eShips turn pItems eItems W H).1)
          b).get? id = some ship →
      natMapGet (sideHitsMap (runOps ops (initializeGame pShips eShips turn pItems eItems W H).1)
          b) id ≤ (getShipCellsFromShip ship).length) := by
  refine ⟨?_, ?_, ?_⟩
  · intro s x y side supp info
    refine ⟨?_, ?_, executeShot_otherHits s x y side supp info⟩
    · intro h
      exact congrArg (fun t => t.2.1) (executeShot_cellAlreadyShot s x y side supp info h)
    · intro h id
      exact executeShot_hitsMap s x y side supp info h id
  · intro s side id ship hget
    exact isShipDestroyed_iff s side id ship hget
  · intro ops pShips eShips turn pItems eItems W H b id ship hget
    have hinv := runOps_shipHitsInv ops pShips eShips turn pItems eItems W H
    have h' : hitsInvSide
        (sideTargetShips (runOps ops (initializeGame pShips eShips turn pItems eItems W H).1) b)
        (sideHitsMap (runOps ops (initializeGame pShips eShips turn pItems eItems W H).1) b)
        (sideShotsMap (runOps ops (initializeGame pShips eShips turn pItems eItems W H).1) b) := by
      cases b
      · exact hinv.2
      · exact hinv.1
    rw [h' id ship hget]
    exact List.length_filter_le _ _

/-- Witness for C7: the fresh Scenario A shot at (5,5) bumps ship 0's
counter by one; on the fresh board `isShipDestroyed` agrees with the
counter/cell-count comparison for the stored two-cell ship; after a
single-shot pattern from a fresh game the counter stays within the cell
count. -/
theorem C7_ship_hit_accounting_witness :
    isCellShot demoBoardA 5 5 true = false ∧
    natMapGet (sideHitsMap (executeShot demoBoardA 5 5 true false none).2.1 true) 0 =
      natMapGet (sideHitsMap demoBoardA true) 0 +
        (if shipIdAt (sideTargetShips demoBoardA true) 5 5 = some 0 then 1 else 0) ∧
    (sideTargetShips demoBoardA true).get? 0 = some demoShip ∧
    (isShipDestroyed demoBoardA 0 true = true ↔
      natMapGet (sideHitsMap demoBoardA true) 0 = (getShipCellsFromShip demoShip).length) ∧
    natMapGet (sideHitsMap (runOps [EngOp.pattern 5 5 SINGLE_SHOT true]
        (initializeGame [] [demoShip] GameTurn.PLAYER_TURN [] [] 10 10).1) true) 0
      ≤ (getShipCellsFromShip demoShip).length :=
  ⟨by decide,
   (C7_ship_hit_accounting.1 demoBoardA 5 5 true false none).2.1 (by decide) 0,
   by decide,
   C7_ship_hit_accounting.2.1 demoBoardA true 0 demoShip (by decide),
   C7_ship_hit_accounting.2.2 [EngOp.pattern 5 5 SINGLE_SHOT true] [] [demoShip]
     GameTurn.PLAYER_TURN [] [] 10 10 true 0 demoShip (by decide)⟩

end Armada
